import Mathlib

/-!
# microwalksat: a shallow embedding of `microwsat.c`

The definitions below follow `src/microwsat.c` function by function.

* A clause (`int*`, zero terminated) is the list of its memory cells; a scan
  `for (i = 0; clause[i] != 0; i++)` stops at the first cell holding `0`, or
  at the end of the list.
* The assignment (`int* model`) is a memory `Nat → Int` indexed by variable.
* `rand()` is a stream of values together with the number of draws already
  made; every function that draws returns the new number of draws.
* The floating point test `(float)rand() / RAND_MAX < S->noise` is not
  computed: its outcome is a parameter of the development (`Libc.belowNoise`),
  so that every theorem holds whatever float arithmetic and `RAND_MAX` are.
* The functions are faithful on a CNF that meets the invariants of the data
  model (`validCNF`): an empty clause makes the source divide by zero, and a
  literal beyond `numVariables` makes it index the model out of bounds.
* A clause pointer handed to `pickVariableToFlip` is the index of the clause
  in the clause table: `parse` allocates every clause separately, so the
  pointer comparison `S->cnf.clauses[j] != clause` is the comparison of
  indices.
-/

namespace MicroWalkSat

/-- Verdict `UNSAT` of `enum {UNSAT = 0, SAT = 1}`. -/
def UNSAT : Int := 0

/-- Verdict `SAT` of `enum {UNSAT = 0, SAT = 1}`. -/
def SAT : Int := 1

/-- The struct `CNF`: the clause table and the two counters. -/
structure CNF where
  clauses : List (List Int)
  numClauses : Int
  numVariables : Int

/-- The struct `solver`. The field `noise` is a C `float`; it is only ever
handed to the comparison `Libc.belowNoise`. -/
structure solver where
  cnf : CNF
  model : Nat → Int
  maxTries : Int
  maxFlips : Int
  noise : ℚ

/-- What the program takes from the C library: the values `rand()` returns,
in order, and the outcome of `(float)r / RAND_MAX < noise` for a draw `r`. -/
structure Libc where
  rand : Nat → Nat
  belowNoise : Nat → ℚ → Bool

/-- The cells of `S->cnf.clauses[i]`. -/
def clauseAt (S : solver) (i : Nat) : List Int :=
  S.cnf.clauses.getD i []

/-- Function `evaluateClause` (lines 95-103). -/
def evaluateClause : List Int → (Nat → Int) → Int
  | [], _ => 0
  | lit :: rest, model =>
    if lit = 0 then 0
    else if (lit > 0 ∧ model lit.natAbs = 1) ∨ (lit < 0 ∧ model lit.natAbs = 0) then 1
    else evaluateClause rest model

/-- The array `unsatisfiedClauses` that `pickRandomUnsatisfiedClause` fills
(lines 107-112): the indices `i < numClauses` with `!evaluateClause(...)`,
in increasing order. -/
def unsatisfiedClauses (S : solver) : List Nat :=
  (List.range S.cnf.numClauses.toNat).filter
    (fun i => evaluateClause (clauseAt S i) S.model = 0)

/-- Function `pickRandomUnsatisfiedClause` (lines 105-122); `pos` is the
number of draws made so far, and the result carries the new number. -/
def pickRandomUnsatisfiedClause (L : Libc) (S : solver) (pos : Nat) : Int × Nat :=
  let count := (unsatisfiedClauses S).length
  if count = 0 then (-1, pos)
  else (((unsatisfiedClauses S).getD (L.rand pos % count) 0 : Nat), pos + 1)

/-- The loop `while (clause[i] != 0) i++` (line 128): the final `i`. -/
def clauseLength : List Int → Nat
  | [] => 0
  | lit :: rest => if lit = 0 then 0 else clauseLength rest + 1

/-- The flag `satisfied` of the greedy branch (lines 140-146). -/
def satisfiedFlag (model : Nat → Int) : List Int → Int
  | [] => 0
  | lit :: rest =>
    if lit = 0 then 0
    else if model lit.natAbs = (if lit > 0 then 1 else 0) then 1
    else satisfiedFlag model rest

/-- The value of `breakCount` after the loop over `j` (lines 136-149), for the
candidate `var`; the source never reads `var` in that loop. -/
def breakCount (S : solver) (clause : Nat) (_var : Int) : Int :=
  (((List.range S.cnf.numClauses.toNat).filter
    (fun j => j ≠ clause ∧ satisfiedFlag S.model (clauseAt S j) = 0)).length : Nat)

/-- The loop over the literals of the clause in the greedy branch
(lines 134-155), from some cell on, with the current `bestVar` and
`bestBreakCount`; the result is the final `bestVar`. -/
def greedyLoop (S : solver) (clause : Nat) : List Int → Int → Int → Int
  | [], bestVar, _ => bestVar
  | lit :: rest, bestVar, bestBreakCount =>
    if lit = 0 then bestVar
    else
      let var : Int := (lit.natAbs : Nat)
      if breakCount S clause var < bestBreakCount then
        greedyLoop S clause rest var (breakCount S clause var)
      else greedyLoop S clause rest bestVar bestBreakCount

/-- The position `rand() % i` read by the random-walk branch (line 129), for
a clause with at least one literal. On an empty clause the source divides by
`i = 0`, which no value describes; the properties of the random-walk branch
and of `solve` are stated for non-empty clauses, and `pickVariableToFlipOK`
records the divisor. -/
def walkPosition (cells : List Int) (r : Nat) : Nat :=
  r % clauseLength cells

/-- Function `pickVariableToFlip` (lines 124-158). -/
def pickVariableToFlip (L : Libc) (S : solver) (clause : Nat) (pos : Nat) : Int × Nat :=
  if L.belowNoise (L.rand pos) S.noise then
    ((clauseAt S clause).getD (walkPosition (clauseAt S clause) (L.rand (pos + 1))) 0, pos + 2)
  else
    (greedyLoop S clause (clauseAt S clause) ((clauseAt S clause).getD 0 0) S.cnf.numClauses,
      pos + 1)

/-- Function `flipVariable` (lines 160-162): `model[var] = !model[var]`. -/
def flipVariable (S : solver) (var : Nat) : solver :=
  { S with model := Function.update S.model var (if S.model var = 0 then 1 else 0) }

/-- The loop `for (j = ...; j <= n; j++) model[j] = rand() % 2` with `k`
iterations left (lines 62-64 and 167-169). -/
def rephase (L : Libc) : Nat → Nat → (Nat → Int) → Nat → (Nat → Int) × Nat
  | 0, _, model, pos => (model, pos)
  | k + 1, j, model, pos =>
    rephase L k (j + 1) (Function.update model j ((L.rand pos % 2 : Nat) : Int)) (pos + 1)

/-- The test of lines 173-180: every clause `c < numClauses` evaluates to
non-zero. -/
def allSatisfied (S : solver) : Bool :=
  (List.range S.cnf.numClauses.toNat).all (fun c => evaluateClause (clauseAt S c) S.model != 0)

/-- The loop over `k` of `solve` (lines 170-189) with `n` iterations left:
`some v` when the loop returns the verdict `v`, `none` when it runs out. -/
def flipLoop (L : Libc) : Nat → solver → Nat → Option Int × solver × Nat
  | 0, S, pos => (none, S, pos)
  | n + 1, S, pos =>
    if allSatisfied S then (some SAT, S, pos)
    else
      let r := pickRandomUnsatisfiedClause L S pos
      if r.1 = -1 then (some SAT, S, r.2)
      else
        let p := pickVariableToFlip L S r.1.toNat r.2
        flipLoop L n (flipVariable S p.1.natAbs) p.2

/-- The loop over `i` of `solve` (lines 166-190) with `n` tries left. -/
def tryLoop (L : Libc) : Nat → solver → Nat → Int × solver × Nat
  | 0, S, pos => (UNSAT, S, pos)
  | n + 1, S, pos =>
    let m := rephase L S.cnf.numVariables.toNat 1 S.model pos
    match flipLoop L S.maxFlips.toNat { S with model := m.1 } m.2 with
    | (some v, S1, pos1) => (v, S1, pos1)
    | (none, S1, pos1) => tryLoop L n S1 pos1

/-- Function `solve` (lines 164-193): the verdict, the solver state left
behind and the number of draws made. -/
def solve (L : Libc) (S : solver) (pos : Nat) : Int × solver × Nat :=
  tryLoop L S.maxTries.toNat S pos

/-- The `float` that `S->noise = 0.4` stores: the single precision value
nearest to 0.4. -/
def defaultNoise : ℚ := 13421773 / 33554432

/-- Function `initWSAT` (lines 55-65); `fresh` is the content of the block
that `getMemory` returns. -/
def initWSAT (L : Libc) (S : solver) (n m : Int) (fresh : Nat → Int) (pos : Nat) :
    solver × Nat :=
  let r := rephase L n.toNat 1 fresh pos
  ({ cnf := { clauses := S.cnf.clauses, numClauses := m, numVariables := n },
     model := r.1, maxTries := 5, maxFlips := 100,
     noise := defaultNoise }, r.2)

/-- The effect of `parse` on the clause table (lines 80-89): after `initWSAT`
it stores the arrays it has read in `S->cnf.clauses`. -/
def setClauses (S : solver) (clauses : List (List Int)) : solver :=
  { S with cnf := { S.cnf with clauses := clauses } }

/-! ## Notions used to state the properties -/

/-- The CNF `[[1,2],[-1,-2]]` over two variables, as `parse` stores it. -/
def xorCNF : CNF := ⟨[[1, 2, 0], [-1, -2, 0]], 2, 2⟩

/-- A literal made true by the assignment, as line 98 tests it. -/
def litTrue (model : Nat → Int) (l : Int) : Prop :=
  (l > 0 ∧ model l.natAbs = 1) ∨ (l < 0 ∧ model l.natAbs = 0)

/-- The literals of a clause: its cells before the terminating `0`. -/
def literals (clause : List Int) : List Int :=
  clause.takeWhile (fun l => l ≠ 0)

/-- The invariants of the data model: `numClauses` is the number of clauses,
every clause has at least one literal, and every literal has its magnitude in
`[1, numVariables]` (a literal is not `0`, so only the upper bound is
written). -/
def validCNF (c : CNF) : Prop :=
  c.numClauses = (c.clauses.length : Nat) ∧
  ∀ cl ∈ c.clauses, clauseLength cl ≠ 0 ∧ ∀ l ∈ literals cl, (l.natAbs : Int) ≤ c.numVariables

/-- An assignment whose values are all `0` or `1`. -/
def boolean (model : Nat → Int) : Prop :=
  ∀ j, model j = 0 ∨ model j = 1

/-- Two solver states with the same CNF and the same configuration. -/
def sameConfig (S T : solver) : Prop :=
  T.cnf = S.cnf ∧ T.maxTries = S.maxTries ∧ T.maxFlips = S.maxFlips ∧ T.noise = S.noise

/-- Break-count as section 4.3 of the specification words it: the number of
clauses other than the given one that are satisfied under the current
assignment and unsatisfied once `assignment[v]` is toggled. -/
def specBreakCount (S : solver) (clause : Nat) (v : Nat) : Nat :=
  ((List.range S.cnf.numClauses.toNat).filter
    (fun c => c ≠ clause ∧ evaluateClause (clauseAt S c) S.model = 1 ∧
      evaluateClause (clauseAt S c) (flipVariable S v).model = 0)).length

/-- A library whose `rand()` always returns `r` and whose noise test always
answers `walk`. -/
def constLibc (r : Nat) (walk : Bool) : Libc :=
  ⟨fun _ => r, fun _ _ => walk⟩

/-- A library whose `rand()` returns `a`, `a + b`, `a + 2 b`, ... and
whose noise test always answers `walk`. -/
def affineLibc (a b : Nat) (walk : Bool) : Libc :=
  ⟨fun n => a + b * n, fun _ _ => walk⟩

/-- A solver state over the given clause table, with every variable set to
`value`, the given noise and the default budget of `initWSAT`. -/
def solverOf (clauses : List (List Int)) (numVariables : Int) (value : Int) (noise : ℚ) :
    solver :=
  ⟨⟨clauses, (clauses.length : Nat), numVariables⟩, fun _ => value, 5, 100, noise⟩

/-- The number of calls of `flipVariable` (line 188) made by the loop over
`k` with `n` iterations left: one for every iteration that reaches line 188,
none for an iteration that returns. -/
def flipLoopFlips (L : Libc) : Nat → solver → Nat → Nat
  | 0, _, _ => 0
  | n + 1, S, pos =>
    if allSatisfied S then 0
    else
      let r := pickRandomUnsatisfiedClause L S pos
      if r.1 = -1 then 0
      else
        let p := pickVariableToFlip L S r.1.toNat r.2
        flipLoopFlips L n (flipVariable S p.1.natAbs) p.2 + 1

/-- The number of calls of `flipVariable` made by the loop over `i` with `n`
tries left: those of the first try, and those of the remaining tries when
the first one runs out of flips. -/
def tryLoopFlips (L : Libc) : Nat → solver → Nat → Nat
  | 0, _, _ => 0
  | n + 1, S, pos =>
    let m := rephase L S.cnf.numVariables.toNat 1 S.model pos
    flipLoopFlips L S.maxFlips.toNat { S with model := m.1 } m.2 +
      match flipLoop L S.maxFlips.toNat { S with model := m.1 } m.2 with
      | (some _, _, _) => 0
      | (none, S1, pos1) => tryLoopFlips L n S1 pos1

/-- The number of calls of `flipVariable` made by `solve`. -/
def solveFlips (L : Libc) (S : solver) (pos : Nat) : Nat :=
  tryLoopFlips L S.maxTries.toNat S pos

/-- The solver state `S` with the budget `maxTries`, `maxFlips` replaced. -/
def withBudget (S : solver) (maxTries maxFlips : Int) : solver :=
  { S with maxTries := maxTries, maxFlips := maxFlips }

/-- Two assignments with the same entries at the indices `1..n`. -/
def agreeOn (n : Int) (m1 m2 : Nat → Int) : Prop :=
  ∀ j : Nat, 1 ≤ j → (j : Int) ≤ n → m1 j = m2 j

/-- An assignment whose entries at the indices `1..n` are `0` or `1`. -/
def booleanOn (n : Int) (model : Nat → Int) : Prop :=
  ∀ j : Nat, 1 ≤ j → (j : Int) ≤ n → model j = 0 ∨ model j = 1

/-! ## Access checks

Each function below follows the control flow of the function it is named
after and answers whether every array index and every divisor met on the way
is legal: a model index must lie in `[1, numVariables]`, a clause index in
`[0, numClauses)`, a divisor must not be `0`. The flip loop also checks, at
the start of every iteration and when it runs out, that the entries
`model[1..numVariables]` are `0` or `1`. -/

/-- The index `j` of an access `model[j]` lies in `[1, numVariables]`. -/
def modelIndexOK (S : solver) (j : Nat) : Bool :=
  decide (1 ≤ j ∧ (j : Int) ≤ S.cnf.numVariables)

/-- The index `i` of an access `S->cnf.clauses[i]` lies in `[0, numClauses)`. -/
def clauseIndexOK (S : solver) (i : Int) : Bool :=
  decide (0 ≤ i ∧ i < S.cnf.numClauses)

/-- The entries `model[1..numVariables]` are `0` or `1`. -/
def booleanOK (S : solver) : Bool :=
  (List.range S.cnf.numVariables.toNat).all
    (fun k => decide (S.model (k + 1) = 0 ∨ S.model (k + 1) = 1))

/-- The reads `model[abs(lit)]` of `evaluateClause` (line 98): one for every
literal the scan reaches. -/
def evaluateClauseOK (S : solver) : List Int → Bool
  | [] => true
  | lit :: rest =>
    if lit = 0 then true
    else modelIndexOK S lit.natAbs &&
      (if (lit > 0 ∧ S.model lit.natAbs = 1) ∨ (lit < 0 ∧ S.model lit.natAbs = 0) then true
        else evaluateClauseOK S rest)

/-- The accesses of `pickRandomUnsatisfiedClause`: `clauses[i]` and the reads
of `evaluateClause` for every `i < numClauses` (line 109), and the divisor
`count` of line 119, reached when `count` is not `0`. -/
def pickRandomUnsatisfiedClauseOK (S : solver) : Bool :=
  (List.range S.cnf.numClauses.toNat).all
    (fun i => clauseIndexOK S i && evaluateClauseOK S (clauseAt S i)) &&
  (if (unsatisfiedClauses S).length = 0 then true
    else decide ((unsatisfiedClauses S).length ≠ 0))

/-- The reads `model[abs(clauses[j][k])]` of lines 141-146. -/
def satisfiedFlagOK (S : solver) : List Int → Bool
  | [] => true
  | lit :: rest =>
    if lit = 0 then true
    else modelIndexOK S lit.natAbs &&
      (if S.model lit.natAbs = (if lit > 0 then 1 else 0) then true
        else satisfiedFlagOK S rest)

/-- The accesses of the loop over `j` (lines 138-149): `clauses[j]` for every
`j < numClauses`, and the reads of the inner loop when `clauses[j]` is not
the given clause. -/
def breakCountOK (S : solver) (clause : Nat) : Bool :=
  (List.range S.cnf.numClauses.toNat).all
    (fun j => clauseIndexOK S j &&
      (if j ≠ clause then satisfiedFlagOK S (clauseAt S j) else true))

/-- The accesses of the greedy loop over the literals (lines 134-155). -/
def greedyLoopOK (S : solver) (clause : Nat) : List Int → Bool
  | [] => true
  | lit :: rest =>
    if lit = 0 then true else breakCountOK S clause && greedyLoopOK S clause rest

/-- The accesses of `pickVariableToFlip`: the divisor `i` of line 129 in the
random-walk branch, the accesses of the greedy loop otherwise. -/
def pickVariableToFlipOK (L : Libc) (S : solver) (clause : Nat) (pos : Nat) : Bool :=
  if L.belowNoise (L.rand pos) S.noise then decide (clauseLength (clauseAt S clause) ≠ 0)
  else greedyLoopOK S clause (clauseAt S clause)

/-- The writes `model[j]` of the loop of lines 167-169 with `k` iterations
left. -/
def rephaseOK (S : solver) : Nat → Nat → Bool
  | 0, _ => true
  | k + 1, j => modelIndexOK S j && rephaseOK S k (j + 1)

/-- The accesses of the full check (lines 173-179) over the clause indices
still to visit: `clauses[c]`, the reads of `evaluateClause`, and nothing
more once a clause evaluates to 0 (`break`). -/
def checkLoopOK (S : solver) : List Nat → Bool
  | [] => true
  | c :: rest =>
    clauseIndexOK S c && evaluateClauseOK S (clauseAt S c) &&
      (if evaluateClause (clauseAt S c) S.model = 0 then true else checkLoopOK S rest)

/-- The accesses of the loop over `k` of `solve` with `n` iterations left:
the full check, the selector, `clauses[clauseIndex]` (line 186), the
heuristic and the access `model[var]` of `flipVariable`. -/
def flipLoopOK (L : Libc) : Nat → solver → Nat → Bool
  | 0, S, _ => booleanOK S
  | n + 1, S, pos =>
    booleanOK S && checkLoopOK S (List.range S.cnf.numClauses.toNat) &&
      (if allSatisfied S then true
        else
          let r := pickRandomUnsatisfiedClause L S pos
          pickRandomUnsatisfiedClauseOK S &&
            (if r.1 = -1 then true
              else
                let p := pickVariableToFlip L S r.1.toNat r.2
                clauseIndexOK S r.1 && pickVariableToFlipOK L S r.1.toNat r.2 &&
                  modelIndexOK S p.1.natAbs &&
                  flipLoopOK L n (flipVariable S p.1.natAbs) p.2))

/-- The accesses of the loop over `i` of `solve` with `n` tries left. -/
def tryLoopOK (L : Libc) : Nat → solver → Nat → Bool
  | 0, _, _ => true
  | n + 1, S, pos =>
    let m := rephase L S.cnf.numVariables.toNat 1 S.model pos
    let f := flipLoop L S.maxFlips.toNat { S with model := m.1 } m.2
    rephaseOK S S.cnf.numVariables.toNat 1 &&
      flipLoopOK L S.maxFlips.toNat { S with model := m.1 } m.2 &&
      (f.1.isSome || tryLoopOK L n f.2.1 f.2.2)

/-- Every access and divisor of `solve` is legal. -/
def solveOK (L : Libc) (S : solver) (pos : Nat) : Bool :=
  tryLoopOK L S.maxTries.toNat S pos

/-! ## The clause evaluator -/

theorem evaluateClause_zero_or_one (clause : List Int) (model : Nat → Int) :
    evaluateClause clause model = 0 ∨ evaluateClause clause model = 1 := by
  induction clause with
  | nil => exact Or.inl rfl
  | cons lit rest ih =>
    unfold evaluateClause
    split_ifs
    · exact Or.inl rfl
    · exact Or.inr rfl
    · exact ih

theorem evaluateClause_eq_one_iff (clause : List Int) (model : Nat → Int) :
    evaluateClause clause model = 1 ↔ ∃ l ∈ literals clause, litTrue model l := by
  induction clause with
  | nil => simp [evaluateClause, literals]
  | cons lit rest ih =>
    unfold evaluateClause
    by_cases h0 : lit = 0
    · simp [h0, literals]
    · by_cases ht : (lit > 0 ∧ model lit.natAbs = 1) ∨ (lit < 0 ∧ model lit.natAbs = 0)
      · rw [if_neg h0, if_pos ht]
        simp only [true_iff]
        exact ⟨lit, by simp [literals, h0], ht⟩
      · rw [if_neg h0, if_neg ht, ih]
        have hl : literals (lit :: rest) = lit :: literals rest := by
          simp [literals, h0]
        rw [hl]
        constructor
        · rintro ⟨l, hl1, hl2⟩
          exact ⟨l, List.mem_cons_of_mem _ hl1, hl2⟩
        · rintro ⟨l, hl1, hl2⟩
          rcases List.mem_cons.mp hl1 with rfl | hm
          · exact absurd hl2 ht
          · exact ⟨l, hm, hl2⟩

theorem evaluateClause_ne_zero_iff (clause : List Int) (model : Nat → Int) :
    evaluateClause clause model ≠ 0 ↔ evaluateClause clause model = 1 := by
  rcases evaluateClause_zero_or_one clause model with h | h <;> simp [h]

theorem evaluateClause_eq_zero_iff (clause : List Int) (model : Nat → Int) :
    evaluateClause clause model = 0 ↔ ¬ evaluateClause clause model = 1 := by
  rcases evaluateClause_zero_or_one clause model with h | h <;> simp [h]

/-- Claim C2: `evaluateClause` returns 1 exactly when some literal before the
terminating 0 is made true by the assignment (positive with value 1, or
negative with value 0), and 0 otherwise; `[1, -2]` evaluates to 1 under
`1 = true, 2 = true` and to 0 under `1 = false, 2 = true`. -/
theorem evaluateClause_spec :
    (∀ (clause : List Int) (model : Nat → Int),
      (evaluateClause clause model = 1 ↔
        ∃ l ∈ literals clause,
          (l > 0 ∧ model l.natAbs = 1) ∨ (l < 0 ∧ model l.natAbs = 0)) ∧
      ((¬ ∃ l ∈ literals clause,
          (l > 0 ∧ model l.natAbs = 1) ∨ (l < 0 ∧ model l.natAbs = 0)) →
        evaluateClause clause model = 0)) ∧
    evaluateClause [1, -2, 0] (fun j => if j = 1 then 1 else if j = 2 then 1 else 0) = 1 ∧
    evaluateClause [1, -2, 0] (fun j => if j = 1 then 0 else if j = 2 then 1 else 0) = 0 := by
  refine ⟨fun clause model => ⟨evaluateClause_eq_one_iff clause model, fun h => ?_⟩, by decide,
    by decide⟩
  rw [evaluateClause_eq_zero_iff, evaluateClause_eq_one_iff]
  exact h

/-! ## The unsatisfied-clause selector -/

theorem mem_unsatisfiedClauses (S : solver) (i : Nat) :
    i ∈ unsatisfiedClauses S ↔
      (i : Int) < S.cnf.numClauses ∧ evaluateClause (clauseAt S i) S.model = 0 := by
  simp [unsatisfiedClauses, List.mem_filter, Int.lt_toNat]

theorem sorted_unsatisfiedClauses (S : solver) :
    List.Sorted (fun a b => a < b) (unsatisfiedClauses S) :=
  List.Sorted.filter _ (List.sorted_lt_range _)

theorem unsatisfiedClauses_eq_nil_iff (S : solver) :
    unsatisfiedClauses S = [] ↔
      ∀ i : Nat, (i : Int) < S.cnf.numClauses → evaluateClause (clauseAt S i) S.model = 1 := by
  rw [List.eq_nil_iff_forall_not_mem]
  constructor
  · intro h i hi
    by_contra hne
    exact h i ((mem_unsatisfiedClauses S i).mpr
      ⟨hi, (evaluateClause_eq_zero_iff _ _).mpr hne⟩)
  · intro h i hm
    have := (mem_unsatisfiedClauses S i).mp hm
    have h1 := h i this.1
    rw [this.2] at h1
    exact absurd h1 (by decide)

theorem pickRandomUnsatisfiedClause_of_nil (L : Libc) (S : solver) (pos : Nat)
    (h : unsatisfiedClauses S = []) : pickRandomUnsatisfiedClause L S pos = (-1, pos) := by
  simp [pickRandomUnsatisfiedClause, h]

theorem pickRandomUnsatisfiedClause_of_ne_nil (L : Libc) (S : solver) (pos : Nat)
    (h : unsatisfiedClauses S ≠ []) :
    ∃ hlt : L.rand pos % (unsatisfiedClauses S).length < (unsatisfiedClauses S).length,
      pickRandomUnsatisfiedClause L S pos =
        ((((unsatisfiedClauses S).get ⟨L.rand pos % (unsatisfiedClauses S).length, hlt⟩ : Nat) :
          Int), pos + 1) := by
  have hpos : 0 < (unsatisfiedClauses S).length := List.length_pos.mpr h
  refine ⟨Nat.mod_lt _ hpos, ?_⟩
  unfold pickRandomUnsatisfiedClause
  simp only [Nat.ne_of_gt hpos, if_false]
  rw [List.getD_eq_getElem _ _ (Nat.mod_lt _ hpos)]
  rfl

theorem pickRandomUnsatisfiedClause_eq_neg_one_iff (L : Libc) (S : solver) (pos : Nat) :
    (pickRandomUnsatisfiedClause L S pos).1 = -1 ↔ unsatisfiedClauses S = [] := by
  constructor
  · intro h
    by_contra hne
    obtain ⟨hlt, he⟩ := pickRandomUnsatisfiedClause_of_ne_nil L S pos hne
    rw [he] at h
    simp only at h
    omega
  · intro h
    rw [pickRandomUnsatisfiedClause_of_nil L S pos h]

/-- Claim C5: `pickRandomUnsatisfiedClause` returns -1 exactly when
`evaluateClause` is 1 on every clause of the CNF, and then it returns -1
whatever `rand()` would return (it makes no draw at all). -/
theorem pickRandomUnsatisfiedClause_none_iff (S : solver) :
    (∀ (L : Libc) (pos : Nat),
      (pickRandomUnsatisfiedClause L S pos).1 = -1 ↔
        ∀ i : Nat, (i : Int) < S.cnf.numClauses →
          evaluateClause (clauseAt S i) S.model = 1) ∧
    ((∀ i : Nat, (i : Int) < S.cnf.numClauses →
          evaluateClause (clauseAt S i) S.model = 1) →
      ∀ (L : Libc) (pos : Nat), pickRandomUnsatisfiedClause L S pos = (-1, pos)) := by
  refine ⟨fun L pos => ?_, fun h L pos => ?_⟩
  · rw [pickRandomUnsatisfiedClause_eq_neg_one_iff, unsatisfiedClauses_eq_nil_iff]
  · exact pickRandomUnsatisfiedClause_of_nil L S pos ((unsatisfiedClauses_eq_nil_iff S).mpr h)

theorem pickRandomUnsatisfiedClause_mem (L : Libc) (S : solver) (pos : Nat)
    (h : unsatisfiedClauses S ≠ []) :
    ∃ i ∈ unsatisfiedClauses S, pickRandomUnsatisfiedClause L S pos = ((i : Int), pos + 1) := by
  obtain ⟨hlt, he⟩ := pickRandomUnsatisfiedClause_of_ne_nil L S pos h
  exact ⟨_, List.get_mem _ _ _, he⟩

theorem unsatisfiedClauses_ne_nil_of_violated (S : solver) (i : Nat)
    (hi : (i : Int) < S.cnf.numClauses) (he : evaluateClause (clauseAt S i) S.model = 0) :
    unsatisfiedClauses S ≠ [] :=
  List.ne_nil_of_mem ((mem_unsatisfiedClauses S i).mpr ⟨hi, he⟩)

/-- Claim C6: when some clause is violated, `pickRandomUnsatisfiedClause`
returns, for every draw, an index `i` with `0 ≤ i < numClauses` whose clause
evaluates to 0; when exactly one clause is violated it returns that one. -/
theorem pickRandomUnsatisfiedClause_violated (L : Libc) (S : solver) (pos : Nat)
    (h : ∃ i : Nat, (i : Int) < S.cnf.numClauses ∧
      evaluateClause (clauseAt S i) S.model = 0) :
    (∃ i : Nat, (pickRandomUnsatisfiedClause L S pos).1 = (i : Int) ∧
      0 ≤ (pickRandomUnsatisfiedClause L S pos).1 ∧
      (pickRandomUnsatisfiedClause L S pos).1 < S.cnf.numClauses ∧
      evaluateClause (clauseAt S i) S.model = 0) ∧
    (∀ i0 : Nat,
      (∀ j : Nat, ((j : Int) < S.cnf.numClauses ∧
        evaluateClause (clauseAt S j) S.model = 0) ↔ j = i0) →
      (pickRandomUnsatisfiedClause L S pos).1 = (i0 : Int)) := by
  obtain ⟨i1, hi1, he1⟩ := h
  obtain ⟨i, hm, hp⟩ := pickRandomUnsatisfiedClause_mem L S pos
    (unsatisfiedClauses_ne_nil_of_violated S i1 hi1 he1)
  have hi := (mem_unsatisfiedClauses S i).mp hm
  refine ⟨⟨i, by rw [hp], by rw [hp]; exact Int.ofNat_nonneg i, by rw [hp]; exact hi.1, hi.2⟩,
    fun i0 h0 => ?_⟩
  rw [hp, (h0 i).mp hi]

/-- Claim C7: with `count ≥ 1` violated clauses, the array of violated indices
is strictly increasing and holds exactly the violated clauses, the function
returns its entry at position `r mod count`, and every violated clause is
returned for exactly one residue of the draw modulo `count`. -/
theorem pickRandomUnsatisfiedClause_equal_weight (S : solver)
    (h : 1 ≤ (unsatisfiedClauses S).length) :
    List.Sorted (fun a b => a < b) (unsatisfiedClauses S) ∧
    (∀ i : Nat, i ∈ unsatisfiedClauses S ↔
      ((i : Int) < S.cnf.numClauses ∧ evaluateClause (clauseAt S i) S.model = 0)) ∧
    (∀ (L : Libc) (pos : Nat), (pickRandomUnsatisfiedClause L S pos).1 =
      (((unsatisfiedClauses S).getD (L.rand pos % (unsatisfiedClauses S).length) 0 : Nat) :
        Int)) ∧
    (∀ i : Nat,
      ((i : Int) < S.cnf.numClauses ∧ evaluateClause (clauseAt S i) S.model = 0) →
      ∃! r : Nat, r < (unsatisfiedClauses S).length ∧
        ∀ (L : Libc) (pos : Nat), ((pickRandomUnsatisfiedClause L S pos).1 = (i : Int) ↔
          L.rand pos % (unsatisfiedClauses S).length = r)) := by
  have hne : unsatisfiedClauses S ≠ [] := List.length_pos.mp h
  have hnd : (unsatisfiedClauses S).Nodup := (sorted_unsatisfiedClauses S).nodup
  have key : ∀ (L : Libc) (pos : Nat) (r : Nat) (hr : r < (unsatisfiedClauses S).length),
      ((pickRandomUnsatisfiedClause L S pos).1 = (((unsatisfiedClauses S).get ⟨r, hr⟩ : Nat) : Int)
        ↔ L.rand pos % (unsatisfiedClauses S).length = r) := by
    intro L pos r hr
    obtain ⟨hlt, he⟩ := pickRandomUnsatisfiedClause_of_ne_nil L S pos hne
    rw [he]
    simp only [Nat.cast_inj]
    rw [hnd.get_inj_iff]
    simp
  refine ⟨sorted_unsatisfiedClauses S, mem_unsatisfiedClauses S, fun L pos => ?_, fun i hi => ?_⟩
  · obtain ⟨hlt, he⟩ := pickRandomUnsatisfiedClause_of_ne_nil L S pos hne
    rw [he, List.getD_eq_getElem _ _ hlt]
    rfl
  · obtain ⟨r, hr, hget⟩ := List.mem_iff_get.mp ((mem_unsatisfiedClauses S i).mpr hi)
      |> fun ⟨n, hn⟩ => (⟨n.1, n.2, hn⟩ : ∃ r, ∃ hr : r < (unsatisfiedClauses S).length,
          (unsatisfiedClauses S).get ⟨r, hr⟩ = i)
    refine ⟨r, ⟨hr, fun L pos => ?_⟩, fun r2 hr2 => ?_⟩
    · rw [← hget]
      exact key L pos r hr
    · have h1 := (hr2.2 (constLibc r2 false) 0).mpr (Nat.mod_eq_of_lt hr2.1)
      rw [← hget] at h1
      have h2 := (key (constLibc r2 false) 0 r hr).mp h1
      simp only [constLibc] at h2
      rw [Nat.mod_eq_of_lt hr2.1] at h2
      exact h2

/-! ## The variable-flip heuristic -/

theorem clauseLength_eq_length_literals (cells : List Int) :
    clauseLength cells = (literals cells).length := by
  induction cells with
  | nil => rfl
  | cons lit rest ih =>
    unfold clauseLength
    by_cases h0 : lit = 0
    · simp [h0, literals]
    · have hl : literals (lit :: rest) = lit :: literals rest := by simp [literals, h0]
      rw [if_neg h0, ih, hl, List.length_cons]

theorem getD_eq_getD_literals (cells : List Int) :
    ∀ p : Nat, p < clauseLength cells → cells.getD p 0 = (literals cells).getD p 0 := by
  induction cells with
  | nil => intro p hp; simp [clauseLength] at hp
  | cons lit rest ih =>
    intro p hp
    unfold clauseLength at hp
    by_cases h0 : lit = 0
    · simp [h0] at hp
    · have hl : literals (lit :: rest) = lit :: literals rest := by simp [literals, h0]
      rw [if_neg h0] at hp
      rw [hl]
      cases p with
      | zero => simp
      | succ q =>
        have := ih q (by omega)
        simpa using this

theorem getD_mem_literals (cells : List Int) (p : Nat) (hp : p < clauseLength cells) :
    cells.getD p 0 ∈ literals cells := by
  rw [getD_eq_getD_literals cells p hp]
  rw [clauseLength_eq_length_literals] at hp
  rw [List.getD_eq_getElem _ _ hp]
  exact List.getElem_mem _

theorem ne_zero_of_mem_literals (cells : List Int) (l : Int) (h : l ∈ literals cells) :
    l ≠ 0 := by
  have := List.mem_takeWhile_imp h
  simpa using this

theorem walkPosition_lt (cells : List Int) (r : Nat) (h : clauseLength cells ≠ 0) :
    walkPosition cells r < clauseLength cells :=
  Nat.mod_lt _ (Nat.pos_of_ne_zero h)

theorem pickVariableToFlip_of_walk (L : Libc) (S : solver) (clause pos : Nat)
    (hw : L.belowNoise (L.rand pos) S.noise = true) :
    pickVariableToFlip L S clause pos =
      ((clauseAt S clause).getD (walkPosition (clauseAt S clause) (L.rand (pos + 1))) 0,
        pos + 2) := by
  simp [pickVariableToFlip, hw]

theorem pickVariableToFlip_of_greedy (L : Libc) (S : solver) (clause pos : Nat)
    (hw : L.belowNoise (L.rand pos) S.noise = false) :
    pickVariableToFlip L S clause pos =
      (greedyLoop S clause (clauseAt S clause) ((clauseAt S clause).getD 0 0)
        S.cnf.numClauses, pos + 1) := by
  simp [pickVariableToFlip, hw]

theorem breakCount_lt_numClauses (S : solver) (clause : Nat) (v : Int)
    (h : (clause : Int) < S.cnf.numClauses) : breakCount S clause v < S.cnf.numClauses := by
  have hc : clause < S.cnf.numClauses.toNat := Int.lt_toNat.mpr h
  have hlt : ((List.range S.cnf.numClauses.toNat).filter
      (fun j => decide (j ≠ clause ∧ satisfiedFlag S.model (clauseAt S j) = 0))).length
        < (List.range S.cnf.numClauses.toNat).length :=
    List.length_filter_lt_length_iff_exists.mpr ⟨clause, List.mem_range.mpr hc, by simp⟩
  rw [List.length_range] at hlt
  unfold breakCount
  omega

theorem greedyLoop_stable (S : solver) (clause : Nat) (cells : List Int) :
    ∀ (bestVar bestBreakCount : Int), bestBreakCount ≤ breakCount S clause 0 →
      greedyLoop S clause cells bestVar bestBreakCount = bestVar := by
  induction cells with
  | nil => intro bv bb _; rfl
  | cons lit rest ih =>
    intro bv bb hb
    unfold greedyLoop
    by_cases h0 : lit = 0
    · rw [if_pos h0]
    · have hnot : ¬ breakCount S clause ((lit.natAbs : Nat) : Int) < bb := by
        have : breakCount S clause ((lit.natAbs : Nat) : Int) = breakCount S clause 0 := rfl
        omega
      rw [if_neg h0]
      simp only [hnot, if_false]
      exact ih bv bb hb

theorem greedyLoop_first (S : solver) (clause : Nat) (cells : List Int)
    (bestVar bestBreakCount : Int) (hne : clauseLength cells ≠ 0)
    (hb : breakCount S clause 0 < bestBreakCount) :
    greedyLoop S clause cells bestVar bestBreakCount =
      (((cells.getD 0 0).natAbs : Nat) : Int) := by
  cases cells with
  | nil => simp [clauseLength] at hne
  | cons lit rest =>
    by_cases h0 : lit = 0
    · simp [clauseLength, h0] at hne
    · unfold greedyLoop
      have hlt : breakCount S clause ((lit.natAbs : Nat) : Int) < bestBreakCount := hb
      rw [if_neg h0]
      simp only [hlt, if_true]
      rw [greedyLoop_stable S clause rest _ (breakCount S clause ((lit.natAbs : Nat) : Int))
        (le_of_eq rfl)]
      simp

theorem clauseAt_mem (S : solver) (clause : Nat) (hv : validCNF S.cnf)
    (h : (clause : Int) < S.cnf.numClauses) : clauseAt S clause ∈ S.cnf.clauses := by
  have hlt : clause < S.cnf.clauses.length := by
    have := hv.1
    omega
  unfold clauseAt
  rw [List.getD_eq_getElem _ _ hlt]
  exact List.getElem_mem _

/-- The magnitude of the value `pickVariableToFlip` returns is the magnitude
of a literal of the clause, in both branches. -/
theorem pickVariableToFlip_mem (L : Libc) (S : solver) (clause pos : Nat)
    (hne : clauseLength (clauseAt S clause) ≠ 0) :
    ∃ l ∈ literals (clauseAt S clause),
      (pickVariableToFlip L S clause pos).1.natAbs = l.natAbs := by
  cases hw : L.belowNoise (L.rand pos) S.noise with
  | true =>
    rw [pickVariableToFlip_of_walk L S clause pos hw]
    exact ⟨_, getD_mem_literals _ _ (walkPosition_lt _ _ hne), rfl⟩
  | false =>
    rw [pickVariableToFlip_of_greedy L S clause pos hw]
    refine ⟨(clauseAt S clause).getD 0 0,
      getD_mem_literals _ 0 (Nat.pos_of_ne_zero hne), ?_⟩
    by_cases hb : breakCount S clause 0 < S.cnf.numClauses
    · rw [greedyLoop_first S clause _ _ _ hne hb]
      exact Int.natAbs_ofNat _
    · rw [greedyLoop_stable S clause _ _ _ (not_lt.mp hb)]

/-- Claim C10: in the random-walk branch, on a non-empty clause with `len`
literals, `pickVariableToFlip` returns the literal stored at position
`r mod len` (`r` the second draw), which is a literal of the clause, and a
position `p < len` is the one read exactly for the draws congruent to `p`
modulo `len`. -/
theorem pickVariableToFlip_walk (L : Libc) (S : solver) (clause pos : Nat)
    (hne : clauseLength (clauseAt S clause) ≠ 0)
    (hw : L.belowNoise (L.rand pos) S.noise = true) :
    clauseLength (clauseAt S clause) = (literals (clauseAt S clause)).length ∧
    (pickVariableToFlip L S clause pos).1 =
      (clauseAt S clause).getD (walkPosition (clauseAt S clause) (L.rand (pos + 1))) 0 ∧
    (pickVariableToFlip L S clause pos).1 =
      (literals (clauseAt S clause)).getD
        (L.rand (pos + 1) % (literals (clauseAt S clause)).length) 0 ∧
    (pickVariableToFlip L S clause pos).1 ∈ literals (clauseAt S clause) ∧
    (∃ l ∈ literals (clauseAt S clause),
      (pickVariableToFlip L S clause pos).1.natAbs = l.natAbs) ∧
    (∀ p : Nat, p < clauseLength (clauseAt S clause) →
      (walkPosition (clauseAt S clause) (L.rand (pos + 1)) = p ↔
        L.rand (pos + 1) ≡ p [MOD clauseLength (clauseAt S clause)])) := by
  have hlt := walkPosition_lt (clauseAt S clause) (L.rand (pos + 1)) hne
  have hmem := getD_mem_literals _ _ hlt
  rw [pickVariableToFlip_of_walk L S clause pos hw]
  refine ⟨clauseLength_eq_length_literals _, rfl, ?_, hmem, ⟨_, hmem, rfl⟩, fun p hp => ?_⟩
  · rw [getD_eq_getD_literals _ _ hlt, walkPosition, clauseLength_eq_length_literals]
  · unfold walkPosition Nat.ModEq
    rw [Nat.mod_eq_of_lt hp]

/-- Claim C4 as stated fails: on the valid CNF `[[-1]]` with variable 1 true
(so the clause is violated), the random-walk branch returns the signed
literal `-1`, which is not a positive variable index. -/
theorem pickVariableToFlip_returns_signed_literal :
    validCNF (solverOf [[-1, 0]] 1 1 defaultNoise).cnf ∧
    boolean (solverOf [[-1, 0]] 1 1 defaultNoise).model ∧
    evaluateClause (clauseAt (solverOf [[-1, 0]] 1 1 defaultNoise) 0)
      (solverOf [[-1, 0]] 1 1 defaultNoise).model = 0 ∧
    (pickVariableToFlip (constLibc 0 true) (solverOf [[-1, 0]] 1 1 defaultNoise) 0 0).1 = -1 ∧
    ¬ (1 ≤ (pickVariableToFlip (constLibc 0 true) (solverOf [[-1, 0]] 1 1 defaultNoise) 0 0).1)
    := by
  refine ⟨?_, fun j => Or.inr rfl, by decide, by decide, by decide⟩
  unfold validCNF
  decide

/-- Claim C4, amended: for a valid CNF and a clause of it, the magnitude of
the value `pickVariableToFlip` returns is the magnitude of a literal of the
clause and lies in `[1, numVariables]`, in both branches; in the greedy
branch the value itself is that positive index. -/
theorem pickVariableToFlip_magnitude (L : Libc) (S : solver) (clause pos : Nat)
    (hv : validCNF S.cnf) (hc : (clause : Int) < S.cnf.numClauses) :
    (∃ l ∈ literals (clauseAt S clause),
      (pickVariableToFlip L S clause pos).1.natAbs = l.natAbs) ∧
    1 ≤ (pickVariableToFlip L S clause pos).1.natAbs ∧
    ((pickVariableToFlip L S clause pos).1.natAbs : Int) ≤ S.cnf.numVariables ∧
    (L.belowNoise (L.rand pos) S.noise = false →
      1 ≤ (pickVariableToFlip L S clause pos).1 ∧
      (pickVariableToFlip L S clause pos).1 ≤ S.cnf.numVariables) := by
  have hcl := hv.2 _ (clauseAt_mem S clause hv hc)
  obtain ⟨l, hl, he⟩ := pickVariableToFlip_mem L S clause pos hcl.1
  have hl0 := ne_zero_of_mem_literals _ l hl
  have hb := hcl.2 l hl
  have h1 : 1 ≤ (pickVariableToFlip L S clause pos).1.natAbs := by
    rw [he]; exact Int.natAbs_pos.mpr hl0
  have h2 : ((pickVariableToFlip L S clause pos).1.natAbs : Int) ≤ S.cnf.numVariables := by
    rw [he]; exact hb
  refine ⟨⟨l, hl, he⟩, h1, h2, fun hw => ?_⟩
  have hg : (pickVariableToFlip L S clause pos).1 =
      ((((clauseAt S clause).getD 0 0).natAbs : Nat) : Int) := by
    rw [pickVariableToFlip_of_greedy L S clause pos hw]
    exact greedyLoop_first S clause _ _ _ hcl.1 (breakCount_lt_numClauses S clause 0 hc)
  have h3 : ((pickVariableToFlip L S clause pos).1.natAbs : Int) =
      (pickVariableToFlip L S clause pos).1 := by
    rw [hg]; simp
  rw [← h3]
  exact ⟨by exact_mod_cast h1, h2⟩

theorem pickVariableToFlip_magnitude_witness :
    (∃ l ∈ literals (clauseAt (solverOf [[-1, 0]] 1 1 defaultNoise) 0),
      (pickVariableToFlip (constLibc 0 true) (solverOf [[-1, 0]] 1 1 defaultNoise) 0 0).1.natAbs
        = l.natAbs) ∧
    1 ≤ (pickVariableToFlip (constLibc 0 true)
      (solverOf [[-1, 0]] 1 1 defaultNoise) 0 0).1.natAbs :=
  have h := pickVariableToFlip_magnitude (constLibc 0 true)
    (solverOf [[-1, 0]] 1 1 defaultNoise) 0 0 (by unfold validCNF; decide) (by decide)
  ⟨h.1, h.2.1⟩

theorem pickVariableToFlip_walk_witness :
    (pickVariableToFlip (affineLibc 4 1 true) (solverOf [[3, -1, 2, 0]] 3 0 1) 0 0).1 =
      (literals (clauseAt (solverOf [[3, -1, 2, 0]] 3 0 1) 0)).getD
        (5 % (literals (clauseAt (solverOf [[3, -1, 2, 0]] 3 0 1) 0)).length) 0 :=
  (pickVariableToFlip_walk (affineLibc 4 1 true) (solverOf [[3, -1, 2, 0]] 3 0 1) 0 0
    (by decide) (by decide)).2.2.1

/-- Claim C3 fails on the code: for the CNF `[[1,2],[-1]]` with variables 1
and 2 false and the violated clause `[1,2]`, the greedy branch (noise 0)
returns variable 1, whose break-count is 1, although variable 2 has
break-count 0. -/
theorem pickVariableToFlip_greedy_ignores_breaks :
    validCNF (solverOf [[1, 2, 0], [-1, 0]] 2 0 0).cnf ∧
    evaluateClause (clauseAt (solverOf [[1, 2, 0], [-1, 0]] 2 0 0) 0)
      (solverOf [[1, 2, 0], [-1, 0]] 2 0 0).model = 0 ∧
    (∀ r : Nat, (pickVariableToFlip (constLibc r false)
      (solverOf [[1, 2, 0], [-1, 0]] 2 0 0) 0 0).1 = 1) ∧
    specBreakCount (solverOf [[1, 2, 0], [-1, 0]] 2 0 0) 0 1 = 1 ∧
    specBreakCount (solverOf [[1, 2, 0], [-1, 0]] 2 0 0) 0 2 = 0 := by
  refine ⟨?_, by decide, fun r => ?_, by decide, by decide⟩
  · unfold validCNF
    decide
  · rw [pickVariableToFlip_of_greedy _ _ _ _ rfl]
    decide

/-! ## The search loop -/

theorem allSatisfied_iff (S : solver) : allSatisfied S = true ↔ unsatisfiedClauses S = [] := by
  simp [allSatisfied, unsatisfiedClauses, List.filter_eq_nil_iff]

theorem sameConfig_refl (S : solver) : sameConfig S S := ⟨rfl, rfl, rfl, rfl⟩

theorem sameConfig_trans {S T U : solver} (h1 : sameConfig S T) (h2 : sameConfig T U) :
    sameConfig S U :=
  ⟨h2.1.trans h1.1, h2.2.1.trans h1.2.1, h2.2.2.1.trans h1.2.2.1, h2.2.2.2.trans h1.2.2.2⟩

theorem sameConfig_flipVariable (S : solver) (var : Nat) : sameConfig S (flipVariable S var) :=
  ⟨rfl, rfl, rfl, rfl⟩

theorem flipLoop_succ_of_satisfied (L : Libc) (n : Nat) (S : solver) (pos : Nat)
    (h : unsatisfiedClauses S = []) : flipLoop L (n + 1) S pos = (some SAT, S, pos) := by
  unfold flipLoop
  rw [if_pos ((allSatisfied_iff S).mpr h)]

theorem flipLoop_succ_of_violated (L : Libc) (n : Nat) (S : solver) (pos : Nat)
    (h : unsatisfiedClauses S ≠ []) :
    flipLoop L (n + 1) S pos =
      flipLoop L n
        (flipVariable S (pickVariableToFlip L S
          (pickRandomUnsatisfiedClause L S pos).1.toNat (pos + 1)).1.natAbs)
        (pickVariableToFlip L S (pickRandomUnsatisfiedClause L S pos).1.toNat (pos + 1)).2 := by
  have h1 : ¬ allSatisfied S = true := fun hs => h ((allSatisfied_iff S).mp hs)
  have h2 : ¬ (pickRandomUnsatisfiedClause L S pos).1 = -1 :=
    fun hs => h ((pickRandomUnsatisfiedClause_eq_neg_one_iff L S pos).mp hs)
  obtain ⟨i, _, hp⟩ := pickRandomUnsatisfiedClause_mem L S pos h
  have h3 : (pickRandomUnsatisfiedClause L S pos).2 = pos + 1 := by rw [hp]
  conv_lhs => unfold flipLoop
  simp [h1, h2, h3]

theorem flipLoop_sound (L : Libc) :
    ∀ (n : Nat) (S : solver) (pos : Nat) (v : Int), (flipLoop L n S pos).1 = some v →
      v = SAT ∧ unsatisfiedClauses (flipLoop L n S pos).2.1 = [] := by
  intro n
  induction n with
  | zero => intro S pos v h; simp [flipLoop] at h
  | succ n ih =>
    intro S pos v h
    by_cases hs : unsatisfiedClauses S = []
    · rw [flipLoop_succ_of_satisfied L n S pos hs] at h ⊢
      simp only [Option.some.injEq] at h
      exact ⟨h.symm, hs⟩
    · rw [flipLoop_succ_of_violated L n S pos hs] at h ⊢
      exact ih _ _ v h

theorem flipLoop_sameConfig (L : Libc) :
    ∀ (n : Nat) (S : solver) (pos : Nat), sameConfig S (flipLoop L n S pos).2.1 := by
  intro n
  induction n with
  | zero => intro S pos; exact sameConfig_refl S
  | succ n ih =>
    intro S pos
    by_cases hs : unsatisfiedClauses S = []
    · rw [flipLoop_succ_of_satisfied L n S pos hs]
      exact sameConfig_refl S
    · rw [flipLoop_succ_of_violated L n S pos hs]
      exact sameConfig_trans (sameConfig_flipVariable S _) (ih _ _)

theorem tryLoop_succ_of_some (L : Libc) (n : Nat) (S : solver) (pos : Nat) (v : Int)
    (h : (flipLoop L S.maxFlips.toNat
      { S with model := (rephase L S.cnf.numVariables.toNat 1 S.model pos).1 }
      (rephase L S.cnf.numVariables.toNat 1 S.model pos).2).1 = some v) :
    tryLoop L (n + 1) S pos =
      (v, (flipLoop L S.maxFlips.toNat
        { S with model := (rephase L S.cnf.numVariables.toNat 1 S.model pos).1 }
        (rephase L S.cnf.numVariables.toNat 1 S.model pos).2).2) := by
  conv_lhs => unfold tryLoop
  simp only
  split
  · rename_i v1 S1 pos1 heq
    rw [heq] at h ⊢
    simp only [Option.some.injEq] at h
    rw [h]
  · rename_i S1 pos1 heq
    rw [heq] at h
    simp at h

theorem tryLoop_succ_of_none (L : Libc) (n : Nat) (S : solver) (pos : Nat)
    (h : (flipLoop L S.maxFlips.toNat
      { S with model := (rephase L S.cnf.numVariables.toNat 1 S.model pos).1 }
      (rephase L S.cnf.numVariables.toNat 1 S.model pos).2).1 = none) :
    tryLoop L (n + 1) S pos =
      tryLoop L n
        (flipLoop L S.maxFlips.toNat
          { S with model := (rephase L S.cnf.numVariables.toNat 1 S.model pos).1 }
          (rephase L S.cnf.numVariables.toNat 1 S.model pos).2).2.1
        (flipLoop L S.maxFlips.toNat
          { S with model := (rephase L S.cnf.numVariables.toNat 1 S.model pos).1 }
          (rephase L S.cnf.numVariables.toNat 1 S.model pos).2).2.2 := by
  conv_lhs => unfold tryLoop
  simp only
  split
  · rename_i v1 S1 pos1 heq
    rw [heq] at h
    simp at h
  · rename_i S1 pos1 heq
    rw [heq]

theorem tryLoop_sameConfig (L : Libc) :
    ∀ (n : Nat) (S : solver) (pos : Nat), sameConfig S (tryLoop L n S pos).2.1 := by
  intro n
  induction n with
  | zero => intro S pos; exact sameConfig_refl S
  | succ n ih =>
    intro S pos
    have hf := flipLoop_sameConfig L S.maxFlips.toNat
      { S with model := (rephase L S.cnf.numVariables.toNat 1 S.model pos).1 }
      (rephase L S.cnf.numVariables.toNat 1 S.model pos).2
    have h0 : sameConfig S
        { S with model := (rephase L S.cnf.numVariables.toNat 1 S.model pos).1 } :=
      ⟨rfl, rfl, rfl, rfl⟩
    cases hv : (flipLoop L S.maxFlips.toNat
      { S with model := (rephase L S.cnf.numVariables.toNat 1 S.model pos).1 }
      (rephase L S.cnf.numVariables.toNat 1 S.model pos).2).1 with
    | some v =>
      rw [tryLoop_succ_of_some L n S pos v hv]
      exact sameConfig_trans h0 hf
    | none =>
      rw [tryLoop_succ_of_none L n S pos hv]
      exact sameConfig_trans (sameConfig_trans h0 hf) (ih _ _)

theorem tryLoop_verdict (L : Libc) :
    ∀ (n : Nat) (S : solver) (pos : Nat),
      ((tryLoop L n S pos).1 = SAT ∧ unsatisfiedClauses (tryLoop L n S pos).2.1 = []) ∨
      (tryLoop L n S pos).1 = UNSAT := by
  intro n
  induction n with
  | zero => intro S pos; exact Or.inr rfl
  | succ n ih =>
    intro S pos
    cases hv : (flipLoop L S.maxFlips.toNat
      { S with model := (rephase L S.cnf.numVariables.toNat 1 S.model pos).1 }
      (rephase L S.cnf.numVariables.toNat 1 S.model pos).2).1 with
    | some v =>
      rw [tryLoop_succ_of_some L n S pos v hv]
      have := flipLoop_sound L _ _ _ v hv
      exact Or.inl ⟨this.1, this.2⟩
    | none =>
      rw [tryLoop_succ_of_none L n S pos hv]
      exact ih _ _

theorem SAT_ne_UNSAT : SAT ≠ UNSAT := by decide

theorem solve_satisfies (L : Libc) (S : solver) (pos : Nat) (h : (solve L S pos).1 = SAT) :
    ∀ i : Nat, (i : Int) < S.cnf.numClauses →
      evaluateClause (clauseAt S i) (solve L S pos).2.1.model = 1 := by
  unfold solve at h ⊢
  rcases tryLoop_verdict L S.maxTries.toNat S pos with hs | hu
  · have hc := (tryLoop_sameConfig L S.maxTries.toNat S pos).1
    intro i hi
    have := (unsatisfiedClauses_eq_nil_iff _).mp hs.2 i (by rw [hc]; exact hi)
    unfold clauseAt at this ⊢
    rw [hc] at this
    exact this
  · rw [hu] at h
    exact absurd h.symm SAT_ne_UNSAT

theorem evaluateClause_booleanise (clause : List Int) (model : Nat → Int)
    (h : evaluateClause clause model = 1) :
    evaluateClause clause (fun j => if model j = 1 then 1 else 0) = 1 := by
  rw [evaluateClause_eq_one_iff] at h ⊢
  obtain ⟨l, hl, ht⟩ := h
  refine ⟨l, hl, ?_⟩
  rcases ht with ⟨hp, hm⟩ | ⟨hn, hm⟩
  · exact Or.inl ⟨hp, by simp [hm]⟩
  · exact Or.inr ⟨hn, by simp [hm]⟩

/-- Claim C1: if `solve` returns SAT, the assignment it leaves in the model
satisfies every clause of the CNF according to `evaluateClause`; the CNF
itself is unchanged. -/
theorem solve_sound (L : Libc) (S : solver) (pos : Nat) (h : (solve L S pos).1 = SAT) :
    (solve L S pos).2.1.cnf = S.cnf ∧
    ∀ i : Nat, (i : Int) < S.cnf.numClauses →
      evaluateClause (clauseAt S i) (solve L S pos).2.1.model = 1 :=
  ⟨(tryLoop_sameConfig L S.maxTries.toNat S pos).1, solve_satisfies L S pos h⟩

theorem solve_sound_witness :
    (solve (constLibc 0 true) (solverOf [[1, 2, 0], [-1, -2, 0]] 2 7 defaultNoise) 0).1 = SAT ∧
    evaluateClause (clauseAt (solverOf [[1, 2, 0], [-1, -2, 0]] 2 7 defaultNoise) 0)
      (solve (constLibc 0 true)
        (solverOf [[1, 2, 0], [-1, -2, 0]] 2 7 defaultNoise) 0).2.1.model = 1 ∧
    evaluateClause (clauseAt (solverOf [[1, 2, 0], [-1, -2, 0]] 2 7 defaultNoise) 1)
      (solve (constLibc 0 true)
        (solverOf [[1, 2, 0], [-1, -2, 0]] 2 7 defaultNoise) 0).2.1.model = 1 :=
  ⟨by decide,
    (solve_sound (constLibc 0 true)
      (solverOf [[1, 2, 0], [-1, -2, 0]] 2 7 defaultNoise) 0 (by decide)).2 0 (by decide),
    (solve_sound (constLibc 0 true)
      (solverOf [[1, 2, 0], [-1, -2, 0]] 2 7 defaultNoise) 0 (by decide)).2 1 (by decide)⟩

/-! ## The end-to-end example `[[1,2],[-1,-2]]` -/

theorem rephase_snd (L : Libc) :
    ∀ (k j : Nat) (model : Nat → Int) (pos : Nat), (rephase L k j model pos).2 = pos + k := by
  intro k
  induction k with
  | zero => intro j model pos; rfl
  | succ k ih =>
    intro j model pos
    unfold rephase
    rw [ih]
    omega

theorem rephase_fst (L : Libc) :
    ∀ (k j : Nat) (model : Nat → Int) (pos i : Nat),
      (rephase L k j model pos).1 i =
        if j ≤ i ∧ i < j + k then ((L.rand (pos + (i - j)) % 2 : Nat) : Int) else model i := by
  intro k
  induction k with
  | zero =>
    intro j model pos i
    have : ¬ (j ≤ i ∧ i < j + 0) := by omega
    rw [if_neg this]
    rfl
  | succ k ih =>
    intro j model pos i
    unfold rephase
    rw [ih]
    by_cases hij : i = j
    · subst hij
      have h1 : ¬ (i + 1 ≤ i ∧ i < i + 1 + k) := by omega
      have h2 : i ≤ i ∧ i < i + (k + 1) := by omega
      rw [if_neg h1, if_pos h2]
      simp
    · by_cases hc : j + 1 ≤ i ∧ i < j + 1 + k
      · have h2 : j ≤ i ∧ i < j + (k + 1) := by omega
        have h3 : pos + 1 + (i - (j + 1)) = pos + (i - j) := by omega
        rw [if_pos hc, if_pos h2, h3]
      · have h2 : ¬ (j ≤ i ∧ i < j + (k + 1)) := by omega
        rw [if_neg hc, if_neg h2, Function.update_noteq hij]

theorem rephase_boolean_at (L : Libc) (k j : Nat) (model : Nat → Int) (pos i : Nat)
    (h : j ≤ i ∧ i < j + k) :
    (rephase L k j model pos).1 i = 0 ∨ (rephase L k j model pos).1 i = 1 := by
  rw [rephase_fst, if_pos h]
  rcases Nat.mod_two_eq_zero_or_one (L.rand (pos + (i - j))) with h0 | h1
  · rw [h0]; exact Or.inl rfl
  · rw [h1]; exact Or.inr rfl

theorem xor_satisfied_iff (T : solver) (hc : T.cnf = xorCNF) :
    unsatisfiedClauses T = [] ↔
      (T.model 1 = 1 ∨ T.model 2 = 1) ∧ (T.model 1 = 0 ∨ T.model 2 = 0) := by
  rw [unsatisfiedClauses_eq_nil_iff, hc]
  have e0 : clauseAt T 0 = [1, 2, 0] := by unfold clauseAt; rw [hc]; rfl
  have e1 : clauseAt T 1 = [-1, -2, 0] := by unfold clauseAt; rw [hc]; rfl
  have v0 : evaluateClause [1, 2, 0] T.model = 1 ↔ (T.model 1 = 1 ∨ T.model 2 = 1) := by
    simp [evaluateClause]
    tauto
  have v1 : evaluateClause [-1, -2, 0] T.model = 1 ↔ (T.model 1 = 0 ∨ T.model 2 = 0) := by
    simp [evaluateClause]
    tauto
  constructor
  · intro h
    have h0 := h 0 (by decide)
    have h1 := h 1 (by decide)
    rw [e0] at h0
    rw [e1] at h1
    exact ⟨v0.mp h0, v1.mp h1⟩
  · intro h i hi
    have hi2 : i < 2 := by
      have : (i : Int) < 2 := hi
      omega
    interval_cases i
    · rw [e0]; exact v0.mpr h.1
    · rw [e1]; exact v1.mpr h.2

theorem xor_flip_var (L : Libc) (T : solver) (hc : T.cnf = xorCNF) (pos : Nat)
    (hs : unsatisfiedClauses T ≠ []) :
    (pickVariableToFlip L T (pickRandomUnsatisfiedClause L T pos).1.toNat (pos + 1)).1.natAbs = 1 ∨
    (pickVariableToFlip L T (pickRandomUnsatisfiedClause L T pos).1.toNat (pos + 1)).1.natAbs = 2
    := by
  obtain ⟨i, hm, hp⟩ := pickRandomUnsatisfiedClause_mem L T pos hs
  have hi := ((mem_unsatisfiedClauses T i).mp hm).1
  rw [hc] at hi
  have hi2 : i < 2 := by
    have : (i : Int) < 2 := hi
    omega
  rw [hp]
  simp only [Int.toNat_ofNat]
  have e0 : clauseAt T 0 = [1, 2, 0] := by unfold clauseAt; rw [hc]; rfl
  have e1 : clauseAt T 1 = [-1, -2, 0] := by unfold clauseAt; rw [hc]; rfl
  interval_cases i
  · obtain ⟨l, hl, he⟩ := pickVariableToFlip_mem L T 0 (pos + 1) (by rw [e0]; decide)
    rw [e0] at hl
    have : l = 1 ∨ l = 2 := by simpa [literals] using hl
    rcases this with rfl | rfl
    · exact Or.inl he
    · exact Or.inr he
  · obtain ⟨l, hl, he⟩ := pickVariableToFlip_mem L T 1 (pos + 1) (by rw [e1]; decide)
    rw [e1] at hl
    have : l = -1 ∨ l = -2 := by simpa [literals] using hl
    rcases this with rfl | rfl
    · exact Or.inl he
    · exact Or.inr he

theorem xor_flipLoop (L : Libc) (T : solver) (hc : T.cnf = xorCNF)
    (h1 : T.model 1 = 0 ∨ T.model 1 = 1) (h2 : T.model 2 = 0 ∨ T.model 2 = 1)
    (k pos : Nat) : (flipLoop L (k + 2) T pos).1 = some SAT := by
  by_cases hs : unsatisfiedClauses T = []
  · rw [flipLoop_succ_of_satisfied L (k + 1) T pos hs]
  · rw [flipLoop_succ_of_violated L (k + 1) T pos hs]
    have hv := xor_flip_var L T hc pos hs
    have hns := (not_congr (xor_satisfied_iff T hc)).mp hs
    rw [flipLoop_succ_of_satisfied]
    rw [xor_satisfied_iff _ (show (flipVariable T _).cnf = xorCNF from hc)]
    rcases hv with hv | hv <;> rw [hv] <;> unfold flipVariable <;>
      rcases h1 with h1 | h1 <;> rcases h2 with h2 | h2 <;>
      simp [h1, h2] at hns ⊢

/-- Claim C8: on the CNF `[[1,2],[-1,-2]]` over two variables, with the
configuration `initWSAT` sets (5 tries, 100 flips, noise 0.4), `solve`
returns SAT for every sequence of draws, and the model it leaves makes
`evaluateClause` return 1 on both clauses. -/
theorem solve_xor_default (L : Libc) (S0 : solver) (fresh : Nat → Int) (pos0 pos : Nat) :
    (setClauses (initWSAT L S0 2 2 fresh pos0).1 [[1, 2, 0], [-1, -2, 0]]).cnf = xorCNF ∧
    (solve L (setClauses (initWSAT L S0 2 2 fresh pos0).1 [[1, 2, 0], [-1, -2, 0]]) pos).1
      = SAT ∧
    evaluateClause [1, 2, 0]
      (solve L (setClauses (initWSAT L S0 2 2 fresh pos0).1
        [[1, 2, 0], [-1, -2, 0]]) pos).2.1.model = 1 ∧
    evaluateClause [-1, -2, 0]
      (solve L (setClauses (initWSAT L S0 2 2 fresh pos0).1
        [[1, 2, 0], [-1, -2, 0]]) pos).2.1.model = 1 := by
  have hsat : (solve L (setClauses (initWSAT L S0 2 2 fresh pos0).1
      [[1, 2, 0], [-1, -2, 0]]) pos).1 = SAT := by
    have hf := xor_flipLoop L
      { setClauses (initWSAT L S0 2 2 fresh pos0).1 [[1, 2, 0], [-1, -2, 0]] with
        model := (rephase L 2 1 (initWSAT L S0 2 2 fresh pos0).1.model pos).1 } rfl
      (rephase_boolean_at L 2 1 (initWSAT L S0 2 2 fresh pos0).1.model pos 1 (by decide))
      (rephase_boolean_at L 2 1 (initWSAT L S0 2 2 fresh pos0).1.model pos 2 (by decide)) 98
      (rephase L 2 1 (initWSAT L S0 2 2 fresh pos0).1.model pos).2
    have := tryLoop_succ_of_some L 4
      (setClauses (initWSAT L S0 2 2 fresh pos0).1 [[1, 2, 0], [-1, -2, 0]]) pos SAT hf
    unfold solve
    exact congrArg Prod.fst this
  have h := solve_satisfies L _ pos hsat
  exact ⟨rfl, hsat, h 0 (show ((0 : Nat) : Int) < 2 by decide),
    h 1 (show ((1 : Nat) : Int) < 2 by decide)⟩

theorem pickRandomUnsatisfiedClause_violated_witness :
    ∃ i : Nat,
      (pickRandomUnsatisfiedClause (affineLibc 4 1 true)
        (solverOf [[-1, 0], [1, 2, 0], [-2, 0]] 2 0 defaultNoise) 0).1 = (i : Int) ∧
      0 ≤ (pickRandomUnsatisfiedClause (affineLibc 4 1 true)
        (solverOf [[-1, 0], [1, 2, 0], [-2, 0]] 2 0 defaultNoise) 0).1 ∧
      (pickRandomUnsatisfiedClause (affineLibc 4 1 true)
        (solverOf [[-1, 0], [1, 2, 0], [-2, 0]] 2 0 defaultNoise) 0).1 <
          (solverOf [[-1, 0], [1, 2, 0], [-2, 0]] 2 0 defaultNoise).cnf.numClauses ∧
      evaluateClause (clauseAt (solverOf [[-1, 0], [1, 2, 0], [-2, 0]] 2 0 defaultNoise) i)
        (solverOf [[-1, 0], [1, 2, 0], [-2, 0]] 2 0 defaultNoise).model = 0 :=
  (pickRandomUnsatisfiedClause_violated (affineLibc 4 1 true)
    (solverOf [[-1, 0], [1, 2, 0], [-2, 0]] 2 0 defaultNoise) 0
    ⟨1, by decide, by decide⟩).1

theorem pickRandomUnsatisfiedClause_equal_weight_witness :
    1 ≤ (unsatisfiedClauses (solverOf [[1, 0], [-1, 0], [1, 2, 0]] 2 0 defaultNoise)).length ∧
    List.Sorted (fun a b => a < b)
      (unsatisfiedClauses (solverOf [[1, 0], [-1, 0], [1, 2, 0]] 2 0 defaultNoise)) :=
  ⟨by decide,
    (pickRandomUnsatisfiedClause_equal_weight
      (solverOf [[1, 0], [-1, 0], [1, 2, 0]] 2 0 defaultNoise) (by decide)).1⟩

/-! ## Flip application and frame -/

/-- Claim C13: on an assignment whose entry `v` is 0 or 1, `flipVariable`
turns `model[v]` from 0 to 1 or from 1 to 0, leaves every other entry, the
CNF and the configuration unchanged, and applied twice restores the state. -/
theorem flipVariable_toggle (S : solver) (v : Nat) (hb : S.model v = 0 ∨ S.model v = 1) :
    (S.model v = 0 → (flipVariable S v).model v = 1) ∧
    (S.model v = 1 → (flipVariable S v).model v = 0) ∧
    (∀ j : Nat, j ≠ v → (flipVariable S v).model j = S.model j) ∧
    (flipVariable S v).cnf = S.cnf ∧
    (flipVariable S v).maxTries = S.maxTries ∧
    (flipVariable S v).maxFlips = S.maxFlips ∧
    (flipVariable S v).noise = S.noise ∧
    flipVariable (flipVariable S v) v = S := by
  refine ⟨fun h => by simp [flipVariable, h], fun h => by simp [flipVariable, h],
    fun j hj => by simp [flipVariable, Function.update_noteq hj], rfl, rfl, rfl, rfl, ?_⟩
  have hm : (flipVariable (flipVariable S v) v).model = S.model := by
    funext j
    by_cases hj : j = v
    · subst hj
      rcases hb with h | h <;> simp [flipVariable, h]
    · simp [flipVariable, Function.update_noteq hj]
  cases S
  simp only [flipVariable] at hm ⊢
  rw [hm]

theorem flipVariable_toggle_witness :
    flipVariable (flipVariable (solverOf [[1, 2, 0]] 2 0 defaultNoise) 2) 2 =
      solverOf [[1, 2, 0]] 2 0 defaultNoise :=
  (flipVariable_toggle (solverOf [[1, 2, 0]] 2 0 defaultNoise) 2 (Or.inl rfl)).2.2.2.2.2.2.2

theorem eq_with_model (S T : solver) (h : sameConfig S T) : T = { S with model := T.model } := by
  obtain ⟨h1, h2, h3, h4⟩ := h
  cases S
  cases T
  simp only at h1 h2 h3 h4
  subst h1 h2 h3 h4
  rfl

/-- Claim C14: `solve` changes nothing but the model: the clauses,
`numClauses`, `numVariables`, `maxTries`, `maxFlips` and `noise` of the state
it leaves are those it was given; the two selectors take the state and
return only a value and the number of draws. -/
theorem solve_frame (L : Libc) (S : solver) (pos : Nat) :
    (solve L S pos).2.1.cnf.clauses = S.cnf.clauses ∧
    (solve L S pos).2.1.cnf.numClauses = S.cnf.numClauses ∧
    (solve L S pos).2.1.cnf.numVariables = S.cnf.numVariables ∧
    (solve L S pos).2.1.maxTries = S.maxTries ∧
    (solve L S pos).2.1.maxFlips = S.maxFlips ∧
    (solve L S pos).2.1.noise = S.noise ∧
    (solve L S pos).2.1 = { S with model := (solve L S pos).2.1.model } ∧
    (∀ n : Nat, (flipLoop L n S pos).2.1 =
      { S with model := (flipLoop L n S pos).2.1.model }) := by
  have h := tryLoop_sameConfig L S.maxTries.toNat S pos
  refine ⟨?_, ?_, ?_, h.2.1, h.2.2.1, h.2.2.2, eq_with_model S _ h,
    fun n => eq_with_model S _ (flipLoop_sameConfig L n S pos)⟩
  · exact congrArg CNF.clauses h.1
  · exact congrArg CNF.numClauses h.1
  · exact congrArg CNF.numVariables h.1

/-! ## What the greedy branch computes -/

theorem satisfiedFlag_eq_evaluateClause (model : Nat → Int) (cells : List Int) :
    satisfiedFlag model cells = evaluateClause cells model := by
  induction cells with
  | nil => rfl
  | cons lit rest ih =>
    unfold satisfiedFlag evaluateClause
    by_cases h0 : lit = 0
    · rw [if_pos h0, if_pos h0]
    · rw [if_neg h0, if_neg h0, ih]
      rcases lt_or_gt_of_ne h0 with hneg | hpos
      · have h1 : ¬ lit > 0 := not_lt.mpr (le_of_lt hneg)
        simp [h1, hneg]
      · have h1 : ¬ lit < 0 := not_lt.mpr (le_of_lt hpos)
        simp [h1, hpos]

theorem breakCount_eq (S : solver) (clause : Nat) (v : Int) :
    breakCount S clause v =
      (((List.range S.cnf.numClauses.toNat).filter
        (fun j => j ≠ clause ∧ evaluateClause (clauseAt S j) S.model = 0)).length : Nat) := by
  unfold breakCount
  simp only [satisfiedFlag_eq_evaluateClause]

theorem pickVariableToFlip_greedy_eq (L : Libc) (S : solver) (clause pos : Nat)
    (hc : (clause : Int) < S.cnf.numClauses) (hne : clauseLength (clauseAt S clause) ≠ 0)
    (hg : L.belowNoise (L.rand pos) S.noise = false) :
    pickVariableToFlip L S clause pos =
      (((((clauseAt S clause).getD 0 0).natAbs : Nat) : Int), pos + 1) := by
  rw [pickVariableToFlip_of_greedy L S clause pos hg,
    greedyLoop_first S clause _ _ _ hne (breakCount_lt_numClauses S clause 0 hc)]

/-- Claim C15: the break count the greedy branch computes is the number of
clauses other than the given one that evaluate to 0 under the current
assignment, the same for every candidate; so for a non-empty clause of the
CNF the greedy branch returns the magnitude of the clause's first literal,
whatever the assignment and the other clauses are. -/
theorem pickVariableToFlip_greedy_first (L : Libc) (S : solver) (clause pos : Nat)
    (hc : (clause : Int) < S.cnf.numClauses) (hne : clauseLength (clauseAt S clause) ≠ 0)
    (hg : L.belowNoise (L.rand pos) S.noise = false) :
    (∀ v : Int, breakCount S clause v =
      (((List.range S.cnf.numClauses.toNat).filter
        (fun j => j ≠ clause ∧ evaluateClause (clauseAt S j) S.model = 0)).length : Nat)) ∧
    (∀ v w : Int, breakCount S clause v = breakCount S clause w) ∧
    pickVariableToFlip L S clause pos =
      (((((clauseAt S clause).getD 0 0).natAbs : Nat) : Int), pos + 1) ∧
    (∀ T : solver, (clause : Int) < T.cnf.numClauses →
      clauseAt T clause = clauseAt S clause → L.belowNoise (L.rand pos) T.noise = false →
      pickVariableToFlip L T clause pos = pickVariableToFlip L S clause pos) := by
  refine ⟨breakCount_eq S clause, fun v w => rfl,
    pickVariableToFlip_greedy_eq L S clause pos hc hne hg, fun T hT hcl hgT => ?_⟩
  rw [pickVariableToFlip_greedy_eq L S clause pos hc hne hg,
    pickVariableToFlip_greedy_eq L T clause pos hT (by rw [hcl]; exact hne) hgT, hcl]

theorem pickVariableToFlip_greedy_first_witness :
    pickVariableToFlip (constLibc 9 false) (solverOf [[-1, 0], [-2, 1, 0]] 2 1 0) 1 0 = (2, 1) :=
  (pickVariableToFlip_greedy_first (constLibc 9 false) (solverOf [[-1, 0], [-2, 1, 0]] 2 1 0) 1 0
    (by decide) (by decide) rfl).2.2.1

/-- Claim C18: `solve` calls `pickRandomUnsatisfiedClause` only after the full
check has failed, and then the call never returns -1: an iteration of the
flip loop either returns SAT at line 181 or goes on to flip a variable, so
the return at line 184 is never taken. -/
theorem second_success_path_unreachable (L : Libc) (S : solver) (pos : Nat) :
    (allSatisfied S = false → (pickRandomUnsatisfiedClause L S pos).1 ≠ -1) ∧
    (allSatisfied S = false → ∃ i : Nat, (i : Int) < S.cnf.numClauses ∧
      evaluateClause (clauseAt S i) S.model = 0) ∧
    (∀ n : Nat, flipLoop L (n + 1) S pos =
      if allSatisfied S then (some SAT, S, pos)
      else flipLoop L n
        (flipVariable S (pickVariableToFlip L S
          (pickRandomUnsatisfiedClause L S pos).1.toNat (pos + 1)).1.natAbs)
        (pickVariableToFlip L S
          (pickRandomUnsatisfiedClause L S pos).1.toNat (pos + 1)).2) := by
  have hne : allSatisfied S = false → unsatisfiedClauses S ≠ [] := by
    intro h hs
    rw [(allSatisfied_iff S).mpr hs] at h
    exact absurd h (by decide)
  refine ⟨fun h hp => hne h ((pickRandomUnsatisfiedClause_eq_neg_one_iff L S pos).mp hp),
    fun h => ?_, fun n => ?_⟩
  · obtain ⟨i, hi⟩ := List.exists_mem_of_ne_nil _ (hne h)
    exact ⟨i, (mem_unsatisfiedClauses S i).mp hi⟩
  · cases h : allSatisfied S with
    | true =>
      rw [flipLoop_succ_of_satisfied L n S pos ((allSatisfied_iff S).mp h)]
      simp
    | false =>
      rw [flipLoop_succ_of_violated L n S pos (hne h)]
      simp

/-- Claim C16: the assignment produced by the last flip of a try is not
checked: on the CNF `[[1]]` with `maxTries = 1`, `maxFlips = 1` and a first
draw that makes variable 1 false, `solve` returns UNSAT although the model it
leaves satisfies the clause. -/
theorem solve_unsat_with_satisfying_model :
    ∃ (L : Libc) (S : solver) (pos : Nat),
      L = constLibc 0 true ∧ S = withBudget (solverOf [[1, 0]] 1 0 defaultNoise) 1 1 ∧
      validCNF S.cnf ∧ 1 ≤ S.maxTries ∧ 1 ≤ S.maxFlips ∧
      (solve L S pos).1 = UNSAT ∧ (solve L S pos).2.1.model 1 = 1 ∧
      ∀ i : Nat, (i : Int) < S.cnf.numClauses →
        evaluateClause (clauseAt S i) (solve L S pos).2.1.model = 1 := by
  refine ⟨constLibc 0 true, withBudget (solverOf [[1, 0]] 1 0 defaultNoise) 1 1, 0, rfl, rfl,
    ?_, by decide, by decide, by decide, by decide, fun i hi => ?_⟩
  · unfold validCNF
    decide
  · have hi2 : i < 1 := by
      have : (i : Int) < 1 := hi
      omega
    interval_cases i
    decide

/-! ## The budget -/

theorem flipLoopFlips_succ_of_satisfied (L : Libc) (n : Nat) (S : solver) (pos : Nat)
    (h : unsatisfiedClauses S = []) : flipLoopFlips L (n + 1) S pos = 0 := by
  unfold flipLoopFlips
  rw [if_pos ((allSatisfied_iff S).mpr h)]

theorem flipLoopFlips_succ_of_violated (L : Libc) (n : Nat) (S : solver) (pos : Nat)
    (h : unsatisfiedClauses S ≠ []) :
    flipLoopFlips L (n + 1) S pos =
      flipLoopFlips L n
        (flipVariable S (pickVariableToFlip L S
          (pickRandomUnsatisfiedClause L S pos).1.toNat (pos + 1)).1.natAbs)
        (pickVariableToFlip L S (pickRandomUnsatisfiedClause L S pos).1.toNat (pos + 1)).2
        + 1 := by
  have h1 : ¬ allSatisfied S = true := fun hs => h ((allSatisfied_iff S).mp hs)
  have h2 : ¬ (pickRandomUnsatisfiedClause L S pos).1 = -1 :=
    fun hs => h ((pickRandomUnsatisfiedClause_eq_neg_one_iff L S pos).mp hs)
  obtain ⟨i, _, hp⟩ := pickRandomUnsatisfiedClause_mem L S pos h
  have h3 : (pickRandomUnsatisfiedClause L S pos).2 = pos + 1 := by rw [hp]
  conv_lhs => unfold flipLoopFlips
  simp [h1, h2, h3]

theorem flipLoopFlips_le (L : Libc) :
    ∀ (n : Nat) (S : solver) (pos : Nat), flipLoopFlips L n S pos ≤ n := by
  intro n
  induction n with
  | zero => intro S pos; exact Nat.le_of_eq rfl
  | succ n ih =>
    intro S pos
    by_cases hs : unsatisfiedClauses S = []
    · rw [flipLoopFlips_succ_of_satisfied L n S pos hs]
      exact Nat.zero_le _
    · rw [flipLoopFlips_succ_of_violated L n S pos hs]
      exact Nat.succ_le_succ (ih _ _)

theorem flipLoopFlips_of_none (L : Libc) :
    ∀ (n : Nat) (S : solver) (pos : Nat), (flipLoop L n S pos).1 = none →
      flipLoopFlips L n S pos = n := by
  intro n
  induction n with
  | zero => intro S pos _; rfl
  | succ n ih =>
    intro S pos h
    by_cases hs : unsatisfiedClauses S = []
    · rw [flipLoop_succ_of_satisfied L n S pos hs] at h
      simp at h
    · rw [flipLoop_succ_of_violated L n S pos hs] at h
      rw [flipLoopFlips_succ_of_violated L n S pos hs, ih _ _ h]

theorem tryLoopFlips_succ_of_some (L : Libc) (n : Nat) (S : solver) (pos : Nat) (v : Int)
    (h : (flipLoop L S.maxFlips.toNat
      { S with model := (rephase L S.cnf.numVariables.toNat 1 S.model pos).1 }
      (rephase L S.cnf.numVariables.toNat 1 S.model pos).2).1 = some v) :
    tryLoopFlips L (n + 1) S pos =
      flipLoopFlips L S.maxFlips.toNat
        { S with model := (rephase L S.cnf.numVariables.toNat 1 S.model pos).1 }
        (rephase L S.cnf.numVariables.toNat 1 S.model pos).2 := by
  conv_lhs => unfold tryLoopFlips
  simp only
  split
  · rfl
  · rename_i S1 pos1 heq
    rw [heq] at h
    simp at h

theorem tryLoopFlips_succ_of_none (L : Libc) (n : Nat) (S : solver) (pos : Nat)
    (h : (flipLoop L S.maxFlips.toNat
      { S with model := (rephase L S.cnf.numVariables.toNat 1 S.model pos).1 }
      (rephase L S.cnf.numVariables.toNat 1 S.model pos).2).1 = none) :
    tryLoopFlips L (n + 1) S pos =
      S.maxFlips.toNat +
        tryLoopFlips L n
          (flipLoop L S.maxFlips.toNat
            { S with model := (rephase L S.cnf.numVariables.toNat 1 S.model pos).1 }
            (rephase L S.cnf.numVariables.toNat 1 S.model pos).2).2.1
          (flipLoop L S.maxFlips.toNat
            { S with model := (rephase L S.cnf.numVariables.toNat 1 S.model pos).1 }
            (rephase L S.cnf.numVariables.toNat 1 S.model pos).2).2.2 := by
  have hf := flipLoopFlips_of_none L _ _ _ h
  conv_lhs => unfold tryLoopFlips
  simp only
  rw [hf]
  split
  · rename_i v1 S1 pos1 heq
    rw [heq] at h
    simp at h
  · rename_i S1 pos1 heq
    rw [heq]

theorem maxFlips_after_flipLoop (L : Libc) (S : solver) (pos : Nat) :
    (flipLoop L S.maxFlips.toNat
      { S with model := (rephase L S.cnf.numVariables.toNat 1 S.model pos).1 }
      (rephase L S.cnf.numVariables.toNat 1 S.model pos).2).2.1.maxFlips = S.maxFlips :=
  (flipLoop_sameConfig L S.maxFlips.toNat
    { S with model := (rephase L S.cnf.numVariables.toNat 1 S.model pos).1 }
    (rephase L S.cnf.numVariables.toNat 1 S.model pos).2).2.2.1

theorem tryLoopFlips_le (L : Libc) :
    ∀ (n : Nat) (S : solver) (pos : Nat), tryLoopFlips L n S pos ≤ n * S.maxFlips.toNat := by
  intro n
  induction n with
  | zero => intro S pos; exact Nat.zero_le _
  | succ n ih =>
    intro S pos
    cases hv : (flipLoop L S.maxFlips.toNat
      { S with model := (rephase L S.cnf.numVariables.toNat 1 S.model pos).1 }
      (rephase L S.cnf.numVariables.toNat 1 S.model pos).2).1 with
    | some v =>
      rw [tryLoopFlips_succ_of_some L n S pos v hv]
      have := flipLoopFlips_le L S.maxFlips.toNat
        { S with model := (rephase L S.cnf.numVariables.toNat 1 S.model pos).1 }
        (rephase L S.cnf.numVariables.toNat 1 S.model pos).2
      have h2 : S.maxFlips.toNat ≤ (n + 1) * S.maxFlips.toNat :=
        Nat.le_mul_of_pos_left _ (Nat.succ_pos n)
      exact le_trans this h2
    | none =>
      rw [tryLoopFlips_succ_of_none L n S pos hv]
      have := ih (flipLoop L S.maxFlips.toNat
        { S with model := (rephase L S.cnf.numVariables.toNat 1 S.model pos).1 }
        (rephase L S.cnf.numVariables.toNat 1 S.model pos).2).2.1
        (flipLoop L S.maxFlips.toNat
        { S with model := (rephase L S.cnf.numVariables.toNat 1 S.model pos).1 }
        (rephase L S.cnf.numVariables.toNat 1 S.model pos).2).2.2
      rw [maxFlips_after_flipLoop] at this
      rw [Nat.succ_mul]
      omega

theorem tryLoopFlips_of_UNSAT (L : Libc) :
    ∀ (n : Nat) (S : solver) (pos : Nat), (tryLoop L n S pos).1 = UNSAT →
      tryLoopFlips L n S pos = n * S.maxFlips.toNat := by
  intro n
  induction n with
  | zero => intro S pos _; simp [tryLoopFlips]
  | succ n ih =>
    intro S pos h
    cases hv : (flipLoop L S.maxFlips.toNat
      { S with model := (rephase L S.cnf.numVariables.toNat 1 S.model pos).1 }
      (rephase L S.cnf.numVariables.toNat 1 S.model pos).2).1 with
    | some v =>
      rw [tryLoop_succ_of_some L n S pos v hv] at h
      have hs := (flipLoop_sound L _ _ _ v hv).1
      simp only at h
      rw [hs] at h
      exact absurd h SAT_ne_UNSAT
    | none =>
      rw [tryLoop_succ_of_none L n S pos hv] at h
      rw [tryLoopFlips_succ_of_none L n S pos hv, ih _ _ h, maxFlips_after_flipLoop,
        Nat.succ_mul]
      omega

/-- Claim C12: with `maxTries ≥ 0` and `maxFlips ≥ 0`, `solve` (a total
function: it always returns SAT or UNSAT) makes at most `maxTries × maxFlips`
calls of `flipVariable`, and exactly that many whenever it returns UNSAT. -/
theorem solve_bounded_effort (L : Libc) (S : solver) (pos : Nat)
    (ht : 0 ≤ S.maxTries) (hf : 0 ≤ S.maxFlips) :
    ((solve L S pos).1 = SAT ∨ (solve L S pos).1 = UNSAT) ∧
    (solveFlips L S pos : Int) ≤ S.maxTries * S.maxFlips ∧
    ((solve L S pos).1 = UNSAT → (solveFlips L S pos : Int) = S.maxTries * S.maxFlips) := by
  have e1 : ((S.maxTries.toNat : Nat) : Int) = S.maxTries := Int.toNat_of_nonneg ht
  have e2 : ((S.maxFlips.toNat : Nat) : Int) = S.maxFlips := Int.toNat_of_nonneg hf
  refine ⟨?_, ?_, fun h => ?_⟩
  · rcases tryLoop_verdict L S.maxTries.toNat S pos with h | h
    · exact Or.inl h.1
    · exact Or.inr h
  · have := tryLoopFlips_le L S.maxTries.toNat S pos
    rw [← e1, ← e2]
    exact_mod_cast this
  · have := tryLoopFlips_of_UNSAT L S.maxTries.toNat S pos h
    rw [← e1, ← e2]
    exact_mod_cast this

theorem solve_bounded_effort_witness :
    (solveFlips (constLibc 0 true) (withBudget (solverOf [[1, 0], [-1, 0]] 1 0 defaultNoise) 2 1)
      0 : Int) =
      (withBudget (solverOf [[1, 0], [-1, 0]] 1 0 defaultNoise) 2 1).maxTries *
        (withBudget (solverOf [[1, 0], [-1, 0]] 1 0 defaultNoise) 2 1).maxFlips :=
  (solve_bounded_effort (constLibc 0 true)
    (withBudget (solverOf [[1, 0], [-1, 0]] 1 0 defaultNoise) 2 1) 0
    (by decide) (by decide)).2.2 (by decide)

theorem tryLoop_of_no_flips (L : Libc) :
    ∀ (n : Nat) (S : solver) (pos : Nat), S.maxFlips.toNat = 0 →
      (tryLoop L n S pos).1 = UNSAT ∧ tryLoopFlips L n S pos = 0 := by
  intro n
  induction n with
  | zero => intro S pos _; exact ⟨rfl, rfl⟩
  | succ n ih =>
    intro S pos h0
    have hv : (flipLoop L S.maxFlips.toNat
        { S with model := (rephase L S.cnf.numVariables.toNat 1 S.model pos).1 }
        (rephase L S.cnf.numVariables.toNat 1 S.model pos).2).1 = none := by
      rw [h0]; rfl
    have hm := maxFlips_after_flipLoop L S pos
    rw [tryLoop_succ_of_none L n S pos hv, tryLoopFlips_succ_of_none L n S pos hv]
    have := ih (flipLoop L S.maxFlips.toNat
        { S with model := (rephase L S.cnf.numVariables.toNat 1 S.model pos).1 }
        (rephase L S.cnf.numVariables.toNat 1 S.model pos).2).2.1
      (flipLoop L S.maxFlips.toNat
        { S with model := (rephase L S.cnf.numVariables.toNat 1 S.model pos).1 }
        (rephase L S.cnf.numVariables.toNat 1 S.model pos).2).2.2 (by rw [hm]; exact h0)
    exact ⟨this.1, by rw [this.2, h0]⟩

/-- Claim C20: with `maxTries ≤ 0` `solve` returns UNSAT, makes no flip and
no draw and leaves the state as it was; with `maxFlips ≤ 0` it returns UNSAT
without a flip; this holds for every CNF, the one without clauses included.
With `maxTries ≥ 1` and `maxFlips ≥ 1` the CNF without clauses gives SAT
without a flip. -/
theorem solve_empty_budget (L : Libc) (S : solver) (pos : Nat) :
    (S.maxTries ≤ 0 → solve L S pos = (UNSAT, S, pos) ∧ solveFlips L S pos = 0) ∧
    (S.maxFlips ≤ 0 → (solve L S pos).1 = UNSAT ∧ solveFlips L S pos = 0) ∧
    (1 ≤ S.maxTries → 1 ≤ S.maxFlips → S.cnf.numClauses = 0 →
      (solve L S pos).1 = SAT ∧ solveFlips L S pos = 0) := by
  refine ⟨fun h => ?_, fun h => ?_, fun ht hf hc => ?_⟩
  · have h0 : S.maxTries.toNat = 0 := Int.toNat_eq_zero.mpr h
    unfold solve solveFlips
    rw [h0]
    exact ⟨rfl, rfl⟩
  · exact tryLoop_of_no_flips L S.maxTries.toNat S pos (Int.toNat_eq_zero.mpr h)
  · obtain ⟨a, ha⟩ : ∃ a, S.maxTries.toNat = a + 1 := ⟨S.maxTries.toNat - 1, by omega⟩
    obtain ⟨b, hb⟩ : ∃ b, S.maxFlips.toNat = b + 1 := ⟨S.maxFlips.toNat - 1, by omega⟩
    have hs : unsatisfiedClauses
        { S with model := (rephase L S.cnf.numVariables.toNat 1 S.model pos).1 } = [] := by
      simp [unsatisfiedClauses, hc]
    have hv : (flipLoop L S.maxFlips.toNat
        { S with model := (rephase L S.cnf.numVariables.toNat 1 S.model pos).1 }
        (rephase L S.cnf.numVariables.toNat 1 S.model pos).2).1 = some SAT := by
      rw [hb, flipLoop_succ_of_satisfied L b _ _ hs]
    unfold solve solveFlips
    rw [ha, tryLoop_succ_of_some L a S pos SAT hv, tryLoopFlips_succ_of_some L a S pos SAT hv,
      hb, flipLoopFlips_succ_of_satisfied L b _ _ hs]
    exact ⟨rfl, rfl⟩

/-! ## Independence of the assignment handed to `solve` -/

theorem evaluateClause_congr (cells : List Int) (m1 m2 : Nat → Int)
    (h : ∀ l ∈ literals cells, m1 l.natAbs = m2 l.natAbs) :
    evaluateClause cells m1 = evaluateClause cells m2 := by
  induction cells with
  | nil => rfl
  | cons lit rest ih =>
    unfold evaluateClause
    by_cases h0 : lit = 0
    · rw [if_pos h0, if_pos h0]
    · have hl : literals (lit :: rest) = lit :: literals rest := by simp [literals, h0]
      rw [hl] at h
      rw [if_neg h0, if_neg h0, h lit (List.mem_cons_self _ _),
        ih (fun l hm => h l (List.mem_cons_of_mem _ hm))]

theorem literal_in_range (S : solver) (hv : validCNF S.cnf) (i : Nat)
    (hi : (i : Int) < S.cnf.numClauses) (l : Int) (hl : l ∈ literals (clauseAt S i)) :
    1 ≤ l.natAbs ∧ (l.natAbs : Int) ≤ S.cnf.numVariables :=
  ⟨Int.natAbs_pos.mpr (ne_zero_of_mem_literals _ l hl),
    (hv.2 _ (clauseAt_mem S i hv hi)).2 l hl⟩

theorem clauseAt_congr (S T : solver) (hc : sameConfig S T) (i : Nat) :
    clauseAt T i = clauseAt S i := by
  unfold clauseAt
  rw [hc.1]

theorem evaluateClause_agree (S T : solver) (hc : sameConfig S T) (hv : validCNF S.cnf)
    (ha : agreeOn S.cnf.numVariables S.model T.model) (i : Nat)
    (hi : (i : Int) < S.cnf.numClauses) :
    evaluateClause (clauseAt T i) T.model = evaluateClause (clauseAt S i) S.model := by
  rw [clauseAt_congr S T hc i]
  refine evaluateClause_congr _ _ _ (fun l hl => ?_)
  have := literal_in_range S hv i hi l hl
  exact (ha l.natAbs this.1 this.2).symm

theorem unsatisfiedClauses_agree (S T : solver) (hc : sameConfig S T) (hv : validCNF S.cnf)
    (ha : agreeOn S.cnf.numVariables S.model T.model) :
    unsatisfiedClauses T = unsatisfiedClauses S := by
  unfold unsatisfiedClauses
  rw [hc.1]
  refine List.filter_congr (fun i hi => ?_)
  have hi2 : (i : Int) < S.cnf.numClauses := Int.lt_toNat.mp (List.mem_range.mp hi)
  rw [evaluateClause_agree S T hc hv ha i hi2]

theorem breakCount_agree (S T : solver) (hc : sameConfig S T) (hv : validCNF S.cnf)
    (ha : agreeOn S.cnf.numVariables S.model T.model) (clause : Nat) (v w : Int) :
    breakCount T clause v = breakCount S clause w := by
  rw [breakCount_eq, breakCount_eq, hc.1]
  congr 2
  refine List.filter_congr (fun i hi => ?_)
  have hi2 : (i : Int) < S.cnf.numClauses := Int.lt_toNat.mp (List.mem_range.mp hi)
  rw [evaluateClause_agree S T hc hv ha i hi2]

theorem greedyLoop_congr (S T : solver) (clause : Nat)
    (hb : ∀ v : Int, breakCount T clause v = breakCount S clause v) (cells : List Int) :
    ∀ bestVar bestBreakCount : Int,
      greedyLoop T clause cells bestVar bestBreakCount =
        greedyLoop S clause cells bestVar bestBreakCount := by
  induction cells with
  | nil => intro bv bb; rfl
  | cons lit rest ih =>
    intro bv bb
    unfold greedyLoop
    simp only [hb, ih]

theorem pickRandomUnsatisfiedClause_agree (L : Libc) (S T : solver) (hc : sameConfig S T)
    (hv : validCNF S.cnf) (ha : agreeOn S.cnf.numVariables S.model T.model) (pos : Nat) :
    pickRandomUnsatisfiedClause L T pos = pickRandomUnsatisfiedClause L S pos := by
  unfold pickRandomUnsatisfiedClause
  rw [unsatisfiedClauses_agree S T hc hv ha]

theorem pickVariableToFlip_agree (L : Libc) (S T : solver) (hc : sameConfig S T)
    (hv : validCNF S.cnf) (ha : agreeOn S.cnf.numVariables S.model T.model)
    (clause pos : Nat) :
    pickVariableToFlip L T clause pos = pickVariableToFlip L S clause pos := by
  unfold pickVariableToFlip
  rw [clauseAt_congr S T hc clause, hc.2.2.2, hc.1,
    greedyLoop_congr S T clause (fun v => breakCount_agree S T hc hv ha clause v v)]

theorem agreeOn_flipVariable (n : Int) (S T : solver) (ha : agreeOn n S.model T.model)
    (v : Nat) : agreeOn n (flipVariable S v).model (flipVariable T v).model := by
  intro j h1 h2
  unfold flipVariable
  by_cases hj : j = v
  · subst hj
    simp [ha j h1 h2]
  · simp [Function.update_noteq hj, ha j h1 h2]

theorem flipLoop_agree (L : Libc) :
    ∀ (n : Nat) (S T : solver) (pos : Nat), sameConfig S T → validCNF S.cnf →
      agreeOn S.cnf.numVariables S.model T.model →
      (flipLoop L n T pos).1 = (flipLoop L n S pos).1 ∧
      (flipLoop L n T pos).2.2 = (flipLoop L n S pos).2.2 ∧
      agreeOn S.cnf.numVariables (flipLoop L n S pos).2.1.model
        (flipLoop L n T pos).2.1.model := by
  intro n
  induction n with
  | zero => intro S T pos _ _ ha; exact ⟨rfl, rfl, ha⟩
  | succ n ih =>
    intro S T pos hc hv ha
    have hu := unsatisfiedClauses_agree S T hc hv ha
    by_cases hs : unsatisfiedClauses S = []
    · rw [flipLoop_succ_of_satisfied L n S pos hs,
        flipLoop_succ_of_satisfied L n T pos (hu.trans hs)]
      exact ⟨rfl, rfl, ha⟩
    · rw [flipLoop_succ_of_violated L n S pos hs,
        flipLoop_succ_of_violated L n T pos (fun h => hs (hu.symm.trans h)),
        pickRandomUnsatisfiedClause_agree L S T hc hv ha pos,
        pickVariableToFlip_agree L S T hc hv ha]
      exact ih _ _ _ hc hv (agreeOn_flipVariable _ S T ha _)

theorem rephase_agree (L : Libc) (n : Int) (m1 m2 : Nat → Int) (pos : Nat) :
    agreeOn n (rephase L n.toNat 1 m1 pos).1 (rephase L n.toNat 1 m2 pos).1 := by
  intro j h1 h2
  have hc : 1 ≤ j ∧ j < 1 + n.toNat := by omega
  rw [rephase_fst, rephase_fst, if_pos hc, if_pos hc]

theorem firstTry_agree (L : Libc) (S : solver) (m1 m2 : Nat → Int) (pos : Nat)
    (hv : validCNF S.cnf) :
    (flipLoop L S.maxFlips.toNat
      { S with model := (rephase L S.cnf.numVariables.toNat 1 m2 pos).1 }
      (rephase L S.cnf.numVariables.toNat 1 m2 pos).2).1 =
    (flipLoop L S.maxFlips.toNat
      { S with model := (rephase L S.cnf.numVariables.toNat 1 m1 pos).1 }
      (rephase L S.cnf.numVariables.toNat 1 m1 pos).2).1 ∧
    (flipLoop L S.maxFlips.toNat
      { S with model := (rephase L S.cnf.numVariables.toNat 1 m2 pos).1 }
      (rephase L S.cnf.numVariables.toNat 1 m2 pos).2).2.2 =
    (flipLoop L S.maxFlips.toNat
      { S with model := (rephase L S.cnf.numVariables.toNat 1 m1 pos).1 }
      (rephase L S.cnf.numVariables.toNat 1 m1 pos).2).2.2 ∧
    agreeOn S.cnf.numVariables
      (flipLoop L S.maxFlips.toNat
        { S with model := (rephase L S.cnf.numVariables.toNat 1 m1 pos).1 }
        (rephase L S.cnf.numVariables.toNat 1 m1 pos).2).2.1.model
      (flipLoop L S.maxFlips.toNat
        { S with model := (rephase L S.cnf.numVariables.toNat 1 m2 pos).1 }
        (rephase L S.cnf.numVariables.toNat 1 m2 pos).2).2.1.model := by
  have hp : (rephase L S.cnf.numVariables.toNat 1 m2 pos).2 =
      (rephase L S.cnf.numVariables.toNat 1 m1 pos).2 := by
    rw [rephase_snd, rephase_snd]
  rw [hp]
  exact flipLoop_agree L S.maxFlips.toNat
    { S with model := (rephase L S.cnf.numVariables.toNat 1 m1 pos).1 }
    { S with model := (rephase L S.cnf.numVariables.toNat 1 m2 pos).1 }
    (rephase L S.cnf.numVariables.toNat 1 m1 pos).2 ⟨rfl, rfl, rfl, rfl⟩ hv
    (rephase_agree L S.cnf.numVariables m1 m2 pos)

theorem tryLoop_step_agree (L : Libc) (n : Nat) (S : solver) (m1 m2 : Nat → Int) (pos : Nat)
    (hv : validCNF S.cnf)
    (hrest : ∀ (a b : Nat → Int) (p : Nat), agreeOn S.cnf.numVariables a b →
      (tryLoop L n { S with model := b } p).1 = (tryLoop L n { S with model := a } p).1 ∧
      (tryLoop L n { S with model := b } p).2.2 = (tryLoop L n { S with model := a } p).2.2 ∧
      agreeOn S.cnf.numVariables (tryLoop L n { S with model := a } p).2.1.model
        (tryLoop L n { S with model := b } p).2.1.model) :
    (tryLoop L (n + 1) { S with model := m2 } pos).1 =
      (tryLoop L (n + 1) { S with model := m1 } pos).1 ∧
    (tryLoop L (n + 1) { S with model := m2 } pos).2.2 =
      (tryLoop L (n + 1) { S with model := m1 } pos).2.2 ∧
    agreeOn S.cnf.numVariables (tryLoop L (n + 1) { S with model := m1 } pos).2.1.model
      (tryLoop L (n + 1) { S with model := m2 } pos).2.1.model := by
  obtain ⟨h1, h2, h3⟩ := firstTry_agree L S m1 m2 pos hv
  cases hf : (flipLoop L S.maxFlips.toNat
      { S with model := (rephase L S.cnf.numVariables.toNat 1 m1 pos).1 }
      (rephase L S.cnf.numVariables.toNat 1 m1 pos).2).1 with
  | some v =>
    rw [tryLoop_succ_of_some L n { S with model := m1 } pos v hf,
      tryLoop_succ_of_some L n { S with model := m2 } pos v (h1.trans hf)]
    exact ⟨rfl, h2, h3⟩
  | none =>
    rw [tryLoop_succ_of_none L n { S with model := m1 } pos hf,
      tryLoop_succ_of_none L n { S with model := m2 } pos (h1.trans hf)]
    have e1 := eq_with_model S _ (flipLoop_sameConfig L S.maxFlips.toNat
      { S with model := (rephase L S.cnf.numVariables.toNat 1 m1 pos).1 }
      (rephase L S.cnf.numVariables.toNat 1 m1 pos).2)
    have e2 := eq_with_model S _ (flipLoop_sameConfig L S.maxFlips.toNat
      { S with model := (rephase L S.cnf.numVariables.toNat 1 m2 pos).1 }
      (rephase L S.cnf.numVariables.toNat 1 m2 pos).2)
    have hr := hrest _ _ (flipLoop L S.maxFlips.toNat
      { S with model := (rephase L S.cnf.numVariables.toNat 1 m1 pos).1 }
      (rephase L S.cnf.numVariables.toNat 1 m1 pos).2).2.2 h3
    rw [← e1, ← e2] at hr
    simp only
    rw [h2]
    exact hr

theorem tryLoop_agree (L : Libc) (S : solver) (hv : validCNF S.cnf) :
    ∀ (n : Nat) (a b : Nat → Int) (p : Nat), agreeOn S.cnf.numVariables a b →
      (tryLoop L n { S with model := b } p).1 = (tryLoop L n { S with model := a } p).1 ∧
      (tryLoop L n { S with model := b } p).2.2 = (tryLoop L n { S with model := a } p).2.2 ∧
      agreeOn S.cnf.numVariables (tryLoop L n { S with model := a } p).2.1.model
        (tryLoop L n { S with model := b } p).2.1.model := by
  intro n
  induction n with
  | zero => intro a b p h; exact ⟨rfl, rfl, h⟩
  | succ n ih =>
    intro a b p _
    exact tryLoop_step_agree L n S a b p hv ih

/-- Claim C11: for a valid CNF, `maxTries ≥ 1` and a fixed sequence of draws,
two runs of `solve` that differ only in the model they are handed return the
same verdict, make the same number of draws and leave the same entries
`model[1..numVariables]`: the first loop of a try overwrites each of them
with a fresh draw modulo 2. -/
theorem solve_independent_of_initial_model (L : Libc) (S : solver) (m1 m2 : Nat → Int)
    (pos : Nat) (hv : validCNF S.cnf) (ht : 1 ≤ S.maxTries) :
    (solve L { S with model := m1 } pos).1 = (solve L { S with model := m2 } pos).1 ∧
    (solve L { S with model := m1 } pos).2.2 = (solve L { S with model := m2 } pos).2.2 ∧
    (∀ j : Nat, 1 ≤ j → (j : Int) ≤ S.cnf.numVariables →
      (solve L { S with model := m1 } pos).2.1.model j =
        (solve L { S with model := m2 } pos).2.1.model j) ∧
    (∀ j : Nat, 1 ≤ j → (j : Int) ≤ S.cnf.numVariables →
      (rephase L S.cnf.numVariables.toNat 1 m1 pos).1 j =
        ((L.rand (pos + (j - 1)) % 2 : Nat) : Int)) := by
  obtain ⟨a, ha⟩ : ∃ a, S.maxTries.toNat = a + 1 := ⟨S.maxTries.toNat - 1, by omega⟩
  have h := tryLoop_step_agree L a S m1 m2 pos hv (tryLoop_agree L S hv a)
  have e1 : solve L { S with model := m1 } pos = tryLoop L (a + 1) { S with model := m1 } pos := by
    unfold solve
    rw [← ha]
  have e2 : solve L { S with model := m2 } pos = tryLoop L (a + 1) { S with model := m2 } pos := by
    unfold solve
    rw [← ha]
  rw [e1, e2]
  refine ⟨h.1.symm, h.2.1.symm, h.2.2, fun j h1 h2 => ?_⟩
  have hc : 1 ≤ j ∧ j < 1 + S.cnf.numVariables.toNat := by omega
  rw [rephase_fst, if_pos hc]

theorem solve_independent_of_initial_model_witness :
    (solve (affineLibc 1 1 true)
      { solverOf [[1, 2, 0], [-1, -2, 0]] 2 0 defaultNoise with model := fun _ => 0 } 0).1 =
    (solve (affineLibc 1 1 true)
      { solverOf [[1, 2, 0], [-1, -2, 0]] 2 0 defaultNoise with model := fun _ => 1 } 0).1 :=
  (solve_independent_of_initial_model (affineLibc 1 1 true)
    (solverOf [[1, 2, 0], [-1, -2, 0]] 2 0 defaultNoise) (fun _ => 0) (fun _ => 1) 0
    (by unfold validCNF; decide) (by decide)).1

/-! ## Legal accesses -/

theorem modelIndexOK_iff (S : solver) (j : Nat) :
    modelIndexOK S j = true ↔ 1 ≤ j ∧ (j : Int) ≤ S.cnf.numVariables := by
  simp [modelIndexOK]

theorem clauseIndexOK_of_lt (S : solver) (i : Nat) (h : (i : Int) < S.cnf.numClauses) :
    clauseIndexOK S (i : Int) = true := by
  simp [clauseIndexOK, h]

theorem evaluateClauseOK_of_literals (S : solver) (cells : List Int)
    (h : ∀ l ∈ literals cells, modelIndexOK S l.natAbs = true) :
    evaluateClauseOK S cells = true := by
  induction cells with
  | nil => rfl
  | cons lit rest ih =>
    unfold evaluateClauseOK
    by_cases h0 : lit = 0
    · rw [if_pos h0]
    · have hl : literals (lit :: rest) = lit :: literals rest := by simp [literals, h0]
      rw [hl] at h
      rw [if_neg h0, h lit (List.mem_cons_self _ _),
        ih (fun l hm => h l (List.mem_cons_of_mem _ hm))]
      simp

theorem satisfiedFlagOK_of_literals (S : solver) (cells : List Int)
    (h : ∀ l ∈ literals cells, modelIndexOK S l.natAbs = true) :
    satisfiedFlagOK S cells = true := by
  induction cells with
  | nil => rfl
  | cons lit rest ih =>
    unfold satisfiedFlagOK
    by_cases h0 : lit = 0
    · rw [if_pos h0]
    · have hl : literals (lit :: rest) = lit :: literals rest := by simp [literals, h0]
      rw [hl] at h
      rw [if_neg h0, h lit (List.mem_cons_self _ _),
        ih (fun l hm => h l (List.mem_cons_of_mem _ hm))]
      simp

theorem literals_ok_of_valid (S : solver) (hv : validCNF S.cnf) (i : Nat)
    (hi : (i : Int) < S.cnf.numClauses) :
    ∀ l ∈ literals (clauseAt S i), modelIndexOK S l.natAbs = true :=
  fun l hl => (modelIndexOK_iff S _).mpr (literal_in_range S hv i hi l hl)

theorem pickRandomUnsatisfiedClauseOK_of_valid (S : solver) (hv : validCNF S.cnf) :
    pickRandomUnsatisfiedClauseOK S = true := by
  unfold pickRandomUnsatisfiedClauseOK
  rw [Bool.and_eq_true]
  constructor
  · rw [List.all_eq_true]
    intro i hi
    have hi2 : (i : Int) < S.cnf.numClauses := Int.lt_toNat.mp (List.mem_range.mp hi)
    rw [clauseIndexOK_of_lt S i hi2,
      evaluateClauseOK_of_literals S _ (literals_ok_of_valid S hv i hi2)]
    rfl
  · split_ifs with h
    · rfl
    · exact decide_eq_true h

theorem breakCountOK_of_valid (S : solver) (hv : validCNF S.cnf) (clause : Nat) :
    breakCountOK S clause = true := by
  unfold breakCountOK
  rw [List.all_eq_true]
  intro j hj
  have hj2 : (j : Int) < S.cnf.numClauses := Int.lt_toNat.mp (List.mem_range.mp hj)
  rw [clauseIndexOK_of_lt S j hj2,
    satisfiedFlagOK_of_literals S _ (literals_ok_of_valid S hv j hj2)]
  simp

theorem greedyLoopOK_of_valid (S : solver) (hv : validCNF S.cnf) (clause : Nat)
    (cells : List Int) : greedyLoopOK S clause cells = true := by
  induction cells with
  | nil => rfl
  | cons lit rest ih =>
    unfold greedyLoopOK
    rw [breakCountOK_of_valid S hv clause, ih]
    simp

theorem checkLoopOK_of_valid (S : solver) (hv : validCNF S.cnf) (cs : List Nat)
    (h : ∀ c ∈ cs, (c : Int) < S.cnf.numClauses) : checkLoopOK S cs = true := by
  induction cs with
  | nil => rfl
  | cons c rest ih =>
    unfold checkLoopOK
    have hc := h c (List.mem_cons_self _ _)
    rw [clauseIndexOK_of_lt S c hc,
      evaluateClauseOK_of_literals S _ (literals_ok_of_valid S hv c hc),
      ih (fun d hd => h d (List.mem_cons_of_mem _ hd))]
    simp

theorem rephaseOK_of_range (S : solver) :
    ∀ (k j : Nat), 1 ≤ j → j + k ≤ S.cnf.numVariables.toNat + 1 → rephaseOK S k j = true := by
  intro k
  induction k with
  | zero => intro j _ _; rfl
  | succ k ih =>
    intro j h1 h2
    unfold rephaseOK
    have hj : modelIndexOK S j = true := (modelIndexOK_iff S j).mpr ⟨h1, by omega⟩
    rw [hj, ih (j + 1) (by omega) (by omega)]
    rfl

theorem booleanOK_iff (S : solver) :
    booleanOK S = true ↔ booleanOn S.cnf.numVariables S.model := by
  unfold booleanOK booleanOn
  rw [List.all_eq_true]
  constructor
  · intro h j h1 h2
    have := h (j - 1) (List.mem_range.mpr (by omega))
    rw [Nat.sub_add_cancel h1] at this
    exact of_decide_eq_true this
  · intro h k hk
    have hk2 := List.mem_range.mp hk
    exact decide_eq_true (h (k + 1) (by omega) (by omega))

theorem booleanOn_flipVariable (n : Int) (S : solver) (h : booleanOn n S.model) (v : Nat) :
    booleanOn n (flipVariable S v).model := by
  intro j h1 h2
  unfold flipVariable
  by_cases hj : j = v
  · subst hj
    by_cases h0 : S.model j = 0 <;> simp [h0]
  · simp only [Function.update_noteq hj]
    exact h j h1 h2

theorem booleanOn_rephase (L : Libc) (n : Int) (model : Nat → Int) (pos : Nat) :
    booleanOn n (rephase L n.toNat 1 model pos).1 :=
  fun j h1 h2 => rephase_boolean_at L n.toNat 1 model pos j (by omega)

theorem flip_target_ok (L : Libc) (S : solver) (hv : validCNF S.cnf) (pos : Nat)
    (hs : unsatisfiedClauses S ≠ []) :
    clauseIndexOK S (pickRandomUnsatisfiedClause L S pos).1 = true ∧
    pickVariableToFlipOK L S (pickRandomUnsatisfiedClause L S pos).1.toNat (pos + 1) = true ∧
    modelIndexOK S (pickVariableToFlip L S
      (pickRandomUnsatisfiedClause L S pos).1.toNat (pos + 1)).1.natAbs = true := by
  obtain ⟨i, hm, hp⟩ := pickRandomUnsatisfiedClause_mem L S pos hs
  have hi := ((mem_unsatisfiedClauses S i).mp hm).1
  have hne := (hv.2 _ (clauseAt_mem S i hv hi)).1
  rw [hp]
  simp only [Int.toNat_ofNat]
  refine ⟨clauseIndexOK_of_lt S i hi, ?_, ?_⟩
  · unfold pickVariableToFlipOK
    split_ifs
    · exact decide_eq_true hne
    · exact greedyLoopOK_of_valid S hv i _
  · obtain ⟨l, hl, he⟩ := pickVariableToFlip_mem L S i (pos + 1) hne
    rw [he]
    exact literals_ok_of_valid S hv i hi l hl

theorem flipLoopOK_of_valid (L : Libc) :
    ∀ (n : Nat) (S : solver) (pos : Nat), validCNF S.cnf →
      booleanOn S.cnf.numVariables S.model → flipLoopOK L n S pos = true := by
  intro n
  induction n with
  | zero => intro S pos _ hb; exact (booleanOK_iff S).mpr hb
  | succ n ih =>
    intro S pos hv hb
    unfold flipLoopOK
    have hchk := checkLoopOK_of_valid S hv (List.range S.cnf.numClauses.toNat)
      (fun c hc => Int.lt_toNat.mp (List.mem_range.mp hc))
    rw [(booleanOK_iff S).mpr hb, hchk]
    by_cases hs : unsatisfiedClauses S = []
    · simp [(allSatisfied_iff S).mpr hs]
    · have h1 : ¬ allSatisfied S = true := fun h => hs ((allSatisfied_iff S).mp h)
      have h2 : ¬ (pickRandomUnsatisfiedClause L S pos).1 = -1 :=
        fun h => hs ((pickRandomUnsatisfiedClause_eq_neg_one_iff L S pos).mp h)
      obtain ⟨i, _, hp⟩ := pickRandomUnsatisfiedClause_mem L S pos hs
      have h3 : (pickRandomUnsatisfiedClause L S pos).2 = pos + 1 := by rw [hp]
      obtain ⟨t1, t2, t3⟩ := flip_target_ok L S hv pos hs
      have hrec := ih (flipVariable S (pickVariableToFlip L S
        (pickRandomUnsatisfiedClause L S pos).1.toNat (pos + 1)).1.natAbs)
        (pickVariableToFlip L S (pickRandomUnsatisfiedClause L S pos).1.toNat (pos + 1)).2
        hv (booleanOn_flipVariable _ S hb _)
      simp [h1, h2, h3, pickRandomUnsatisfiedClauseOK_of_valid S hv, t1, t2, t3, hrec]

theorem flipLoop_booleanOn (L : Libc) :
    ∀ (n : Nat) (S : solver) (pos : Nat), booleanOn S.cnf.numVariables S.model →
      booleanOn S.cnf.numVariables (flipLoop L n S pos).2.1.model := by
  intro n
  induction n with
  | zero => intro S pos hb; exact hb
  | succ n ih =>
    intro S pos hb
    by_cases hs : unsatisfiedClauses S = []
    · rw [flipLoop_succ_of_satisfied L n S pos hs]
      exact hb
    · rw [flipLoop_succ_of_violated L n S pos hs]
      exact ih (flipVariable S (pickVariableToFlip L S
        (pickRandomUnsatisfiedClause L S pos).1.toNat (pos + 1)).1.natAbs) _
        (booleanOn_flipVariable _ S hb _)

theorem cnf_after_flipLoop (L : Libc) (S : solver) (pos : Nat) :
    (flipLoop L S.maxFlips.toNat
      { S with model := (rephase L S.cnf.numVariables.toNat 1 S.model pos).1 }
      (rephase L S.cnf.numVariables.toNat 1 S.model pos).2).2.1.cnf = S.cnf :=
  (flipLoop_sameConfig L S.maxFlips.toNat
    { S with model := (rephase L S.cnf.numVariables.toNat 1 S.model pos).1 }
    (rephase L S.cnf.numVariables.toNat 1 S.model pos).2).1

theorem booleanOn_after_flipLoop (L : Libc) (S : solver) (pos : Nat) :
    booleanOn S.cnf.numVariables (flipLoop L S.maxFlips.toNat
      { S with model := (rephase L S.cnf.numVariables.toNat 1 S.model pos).1 }
      (rephase L S.cnf.numVariables.toNat 1 S.model pos).2).2.1.model :=
  flipLoop_booleanOn L S.maxFlips.toNat
    { S with model := (rephase L S.cnf.numVariables.toNat 1 S.model pos).1 }
    (rephase L S.cnf.numVariables.toNat 1 S.model pos).2
    (booleanOn_rephase L S.cnf.numVariables S.model pos)

theorem tryLoopOK_of_valid (L : Libc) :
    ∀ (n : Nat) (S : solver) (pos : Nat), validCNF S.cnf → tryLoopOK L n S pos = true := by
  intro n
  induction n with
  | zero => intro S pos _; rfl
  | succ n ih =>
    intro S pos hv
    unfold tryLoopOK
    have h1 := rephaseOK_of_range S S.cnf.numVariables.toNat 1 (Nat.le_refl 1) (by omega)
    have h2 := flipLoopOK_of_valid L S.maxFlips.toNat
      { S with model := (rephase L S.cnf.numVariables.toNat 1 S.model pos).1 }
      (rephase L S.cnf.numVariables.toNat 1 S.model pos).2 hv
      (booleanOn_rephase L S.cnf.numVariables S.model pos)
    have h3 := ih (flipLoop L S.maxFlips.toNat
      { S with model := (rephase L S.cnf.numVariables.toNat 1 S.model pos).1 }
      (rephase L S.cnf.numVariables.toNat 1 S.model pos).2).2.1
      (flipLoop L S.maxFlips.toNat
      { S with model := (rephase L S.cnf.numVariables.toNat 1 S.model pos).1 }
      (rephase L S.cnf.numVariables.toNat 1 S.model pos).2).2.2
      (by rw [cnf_after_flipLoop]; exact hv)
    simp only [h1, h2, h3, Bool.or_true, Bool.and_self]

theorem tryLoop_booleanOn (L : Libc) :
    ∀ (n : Nat) (S : solver) (pos : Nat), booleanOn S.cnf.numVariables S.model →
      booleanOn S.cnf.numVariables (tryLoop L n S pos).2.1.model := by
  intro n
  induction n with
  | zero => intro S pos hb; exact hb
  | succ n ih =>
    intro S pos _
    have hb := booleanOn_after_flipLoop L S pos
    cases hf : (flipLoop L S.maxFlips.toNat
        { S with model := (rephase L S.cnf.numVariables.toNat 1 S.model pos).1 }
        (rephase L S.cnf.numVariables.toNat 1 S.model pos).2).1 with
    | some v =>
      rw [tryLoop_succ_of_some L n S pos v hf]
      exact hb
    | none =>
      rw [tryLoop_succ_of_none L n S pos hf]
      have := ih (flipLoop L S.maxFlips.toNat
        { S with model := (rephase L S.cnf.numVariables.toNat 1 S.model pos).1 }
        (rephase L S.cnf.numVariables.toNat 1 S.model pos).2).2.1
        (flipLoop L S.maxFlips.toNat
        { S with model := (rephase L S.cnf.numVariables.toNat 1 S.model pos).1 }
        (rephase L S.cnf.numVariables.toNat 1 S.model pos).2).2.2
        (by rw [cnf_after_flipLoop]; exact hb)
      rw [cnf_after_flipLoop] at this
      exact this

theorem tryLoop_succ_booleanOn (L : Libc) (n : Nat) (S : solver) (pos : Nat) :
    booleanOn S.cnf.numVariables (tryLoop L (n + 1) S pos).2.1.model := by
  have hb := booleanOn_after_flipLoop L S pos
  cases hf : (flipLoop L S.maxFlips.toNat
      { S with model := (rephase L S.cnf.numVariables.toNat 1 S.model pos).1 }
      (rephase L S.cnf.numVariables.toNat 1 S.model pos).2).1 with
  | some v =>
    rw [tryLoop_succ_of_some L n S pos v hf]
    exact hb
  | none =>
    rw [tryLoop_succ_of_none L n S pos hf]
    have := tryLoop_booleanOn L n (flipLoop L S.maxFlips.toNat
      { S with model := (rephase L S.cnf.numVariables.toNat 1 S.model pos).1 }
      (rephase L S.cnf.numVariables.toNat 1 S.model pos).2).2.1
      (flipLoop L S.maxFlips.toNat
      { S with model := (rephase L S.cnf.numVariables.toNat 1 S.model pos).1 }
      (rephase L S.cnf.numVariables.toNat 1 S.model pos).2).2.2
      (by rw [cnf_after_flipLoop]; exact hb)
    rw [cnf_after_flipLoop] at this
    exact this

/-- Claim C19: under the invariants of the data model, every execution of
`solve` reads and writes the model only at indices in `[1, numVariables]`,
indexes the clause table only in `[0, numClauses)`, and divides only by a
non-zero `count` (selector) or `i` (random walk); from the first
re-randomisation on the entries `model[1..numVariables]` are 0 or 1, at
every iteration of the flip loop and in the state `solve` leaves. -/
theorem solve_accesses_legal (L : Libc) (S : solver) (pos : Nat) (hv : validCNF S.cnf) :
    solveOK L S pos = true ∧
    0 ≤ S.cnf.numClauses ∧
    (∀ model : Nat → Int, unsatisfiedClauses { S with model := model } ≠ [] →
      (unsatisfiedClauses { S with model := model }).length ≠ 0 ∧
      clauseLength (clauseAt S
        (pickRandomUnsatisfiedClause L { S with model := model } pos).1.toNat) ≠ 0) ∧
    (1 ≤ S.maxTries →
      booleanOn S.cnf.numVariables (solve L S pos).2.1.model) := by
  refine ⟨tryLoopOK_of_valid L S.maxTries.toNat S pos hv, ?_, fun model hs => ⟨?_, ?_⟩,
    fun ht => ?_⟩
  · rw [hv.1]
    exact Int.ofNat_nonneg _
  · exact fun h => hs (List.length_eq_zero.mp h)
  · obtain ⟨i, hm, hp⟩ := pickRandomUnsatisfiedClause_mem L { S with model := model } pos hs
    have hi := ((mem_unsatisfiedClauses { S with model := model } i).mp hm).1
    rw [hp]
    simp only [Int.toNat_ofNat]
    exact (hv.2 _ (clauseAt_mem S i hv hi)).1
  · obtain ⟨a, ha⟩ : ∃ a, S.maxTries.toNat = a + 1 := ⟨S.maxTries.toNat - 1, by omega⟩
    unfold solve
    rw [ha]
    exact tryLoop_succ_booleanOn L a S pos

theorem solve_accesses_legal_witness :
    solveOK (affineLibc 3 7 true)
      (solverOf [[1, 2, 0], [-1, -2, 0], [2, 3, 0], [-3, 0]] 3 0 defaultNoise) 0 = true :=
  (solve_accesses_legal (affineLibc 3 7 true)
    (solverOf [[1, 2, 0], [-1, -2, 0], [2, 3, 0], [-3, 0]] 3 0 defaultNoise) 0
    (by unfold validCNF; decide)).1

/-! ## Unsatisfiable formulas -/

/-- Claim C9: on a CNF that meets the invariants of the data model and that
no 0/1 assignment satisfies, for every configuration and every sequence of
draws, `solve` runs with every access and every divisor legal and returns
UNSAT. -/
theorem solve_unsat_of_unsatisfiable (L : Libc) (S : solver) (pos : Nat)
    (hv : validCNF S.cnf)
    (h : ∀ m : Nat → Int, boolean m →
      ∃ i : Nat, (i : Int) < S.cnf.numClauses ∧ evaluateClause (clauseAt S i) m ≠ 1) :
    solveOK L S pos = true ∧ (solve L S pos).1 = UNSAT := by
  refine ⟨tryLoopOK_of_valid L S.maxTries.toNat S pos hv, ?_⟩
  rcases tryLoop_verdict L S.maxTries.toNat S pos with hs | hu
  · exfalso
    have hall := solve_satisfies L S pos hs.1
    obtain ⟨i, hi, hne⟩ := h (fun j => if (solve L S pos).2.1.model j = 1 then 1 else 0)
      (fun j => by by_cases hj : (solve L S pos).2.1.model j = 1 <;> simp [hj])
    exact hne (evaluateClause_booleanise _ _ (hall i hi))
  · exact hu

theorem solve_unsat_of_unsatisfiable_witness :
    validCNF (solverOf [[1, 0], [-1, 0]] 1 7 defaultNoise).cnf ∧
    (solve (constLibc 0 true) (solverOf [[1, 0], [-1, 0]] 1 7 defaultNoise) 0).1 = UNSAT :=
  ⟨by unfold validCNF; decide,
    (solve_unsat_of_unsatisfiable (constLibc 0 true)
      (solverOf [[1, 0], [-1, 0]] 1 7 defaultNoise) 0 (by unfold validCNF; decide)
      (fun m _ => by
        by_cases h1 : m 1 = 1
        · exact ⟨1, by decide, by simp [clauseAt, solverOf, evaluateClause, h1]⟩
        · exact ⟨0, by decide, by simp [clauseAt, solverOf, evaluateClause, h1]⟩)).2⟩

end MicroWalkSat
